import Mathlib

/-!
Module `Gowiki`: a verification development for the wiki server `wiki.go`.

A shallow embedding of `wiki.go` (package `main` of purplemaze/gowiki) and of the
library behaviour it relies on (`regexp`, `io/ioutil`, `net/http`, `html/template`),
followed by theorems about the page store, the path validator, the dispatcher
`makeHandler`, the three page handlers and the routes registered by `main`.

Conventions of the embedding
* a Go `string` and a Go `[]byte` are both a list of bytes (`GoString`, `Bytes`);
* the file system is explicit state (`FileStore`), threaded through every function
  that performs I/O, together with a trace of the file operations performed; a file
  name resolves to a file, which may be missing, a regular file with its read and
  write permissions, a device, or out of reach;
* the `http.ResponseWriter` is the list of calls made on it, in order;
* a Go `error` is its message.
-/

namespace Gowiki

/-! ## Strings -/

/-- A Go byte slice. -/
abbrev Bytes := List UInt8

/-- A Go string: an immutable sequence of bytes, not necessarily valid UTF-8. -/
abbrev GoString := List UInt8

/-- The bytes of a string literal of the source (UTF-8, as the Go compiler stores it). -/
def str (s : String) : GoString :=
  s.toList.flatMap String.utf8EncodeChar

/-! ## Package `unicode/utf8` -/

namespace utf8

/-- The rune `utf8.RuneError`, U+FFFD. -/
def RuneError : Nat := 0xFFFD

/-- Continuation-byte test with explicit bounds: `lo <= b && b <= hi`. -/
def inRange (lo hi : Nat) (b : UInt8) : Bool :=
  decide (lo ≤ b.toNat) && decide (b.toNat ≤ hi)

/-- Function `utf8.DecodeRuneInString`: the first rune of `s` and its width in bytes.
Ill-formed input yields `(RuneError, 1)`, empty input `(RuneError, 0)`.  The table
`first` of the library is written out as the ranges of the leading byte, with the
accepted range of the second byte that goes with each. -/
def DecodeRuneInString (s : GoString) : Nat × Nat :=
  match s with
  | [] => (RuneError, 0)
  | s0 :: tl =>
    let b0 := s0.toNat
    if b0 < 0x80 then (b0, 1)
    else if b0 < 0xC2 then (RuneError, 1)
    else if b0 < 0xE0 then
      match tl with
      | s1 :: _ =>
        if inRange 0x80 0xBF s1 then ((b0 % 32) * 64 + s1.toNat % 64, 2)
        else (RuneError, 1)
      | [] => (RuneError, 1)
    else if b0 < 0xF0 then
      match tl with
      | s1 :: s2 :: _ =>
        let lo := if b0 = 0xE0 then 0xA0 else 0x80
        let hi := if b0 = 0xED then 0x9F else 0xBF
        if !inRange lo hi s1 then (RuneError, 1)
        else if !inRange 0x80 0xBF s2 then (RuneError, 1)
        else ((b0 % 16) * 4096 + (s1.toNat % 64) * 64 + s2.toNat % 64, 3)
      | _ => (RuneError, 1)
    else if b0 < 0xF5 then
      match tl with
      | s1 :: s2 :: s3 :: _ =>
        let lo := if b0 = 0xF0 then 0x90 else 0x80
        let hi := if b0 = 0xF4 then 0x8F else 0xBF
        if !inRange lo hi s1 then (RuneError, 1)
        else if !inRange 0x80 0xBF s2 then (RuneError, 1)
        else if !inRange 0x80 0xBF s3 then (RuneError, 1)
        else ((b0 % 8) * 262144 + (s1.toNat % 64) * 4096 + (s2.toNat % 64) * 64
                + s3.toNat % 64, 4)
      | _ => (RuneError, 1)
    else (RuneError, 1)

end utf8

/-! ## Package `regexp` -/

namespace regexp

/-- Abstract syntax of the regular expressions used by the program (the result of
`regexp.MustCompile` on a pattern). -/
inductive Regexp where
  /-- The empty expression. -/
  | emptyMatch : Regexp
  /-- Anchor `^` (no flags): beginning of the text. -/
  | beginText : Regexp
  /-- Anchor `$` (no flags): end of the text. -/
  | endText : Regexp
  /-- One literal character. -/
  | literal : Char → Regexp
  /-- A character class given by inclusive ranges, as in `[a-zA-Z0-9]`. -/
  | charClass : List (Char × Char) → Regexp
  /-- Concatenation `xy`. -/
  | concat : Regexp → Regexp → Regexp
  /-- Alternation `x|y`, preferring `x`. -/
  | alternate : Regexp → Regexp → Regexp
  /-- Repetition `x+`, one or more, preferring more. -/
  | plus : Regexp → Regexp
  /-- Numbered capturing group `(x)`. -/
  | capture : Nat → Regexp → Regexp

/-- The expression matching the characters of `cs` one after the other. -/
def literals : List Char → Regexp
  | [] => .emptyMatch
  | [c] => .literal c
  | c :: cs => .concat (.literal c) (literals cs)

/-- One thread of the matcher: the byte offset reached, the input that remains,
and the bounds (begin, end) recorded so far for each capturing group. -/
structure Thread where
  pos : Nat
  rest : GoString
  caps : Nat → Option (Nat × Nat)

/-- Input step of the matcher (`inputString.step`): the rune at the current
position and its width, or nothing at the end of the text. -/
def step (s : GoString) : Option (Nat × Nat) :=
  match s with
  | [] => none
  | c :: _ => if c.toNat < 0x80 then some (c.toNat, 1) else some (utf8.DecodeRuneInString s)

/-- Consume one rune satisfying `p`, then continue with `k`. -/
def matchRune (p : Nat → Bool) (t : Thread) (k : Thread → Option Thread) : Option Thread :=
  match step t.rest with
  | none => none
  | some (r, w) => if p r then k ⟨t.pos + w, t.rest.drop w, t.caps⟩ else none

/-- Membership of a rune in a class given by inclusive ranges. -/
def inClass (ranges : List (Char × Char)) (r : Nat) : Bool :=
  ranges.any (fun lh => decide (lh.1.toNat ≤ r) && decide (r ≤ lh.2.toNat))

/-- The loop of `x+`: one pass of `body`, then, preferring repetition, either a
further pass or the continuation.  A pass that consumed nothing is not repeated.
`fuel` bounds the number of passes; the remaining input length plus one suffices. -/
def plusLoop (body : Thread → (Thread → Option Thread) → Option Thread) :
    Nat → Thread → (Thread → Option Thread) → Option Thread
  | 0, _, _ => none
  | fuel + 1, t, k =>
    body t (fun u =>
      if u.rest.length < t.rest.length then (plusLoop body fuel u k).orElse (fun _ => k u)
      else k u)

/-- Backtracking matcher with leftmost-first preference (the semantics of Go
regular expressions): run `re` from thread `t`, handing every way of matching, in
order of preference, to the continuation `k` until one succeeds. -/
def run : Regexp → Thread → (Thread → Option Thread) → Option Thread
  | .emptyMatch, t, k => k t
  | .beginText, t, k => if t.pos = 0 then k t else none
  | .endText, t, k => if t.rest = [] then k t else none
  | .literal c, t, k => matchRune (fun r => r == c.toNat) t k
  | .charClass ranges, t, k => matchRune (inClass ranges) t k
  | .concat x y, t, k => run x t (fun u => run y u k)
  | .alternate x y, t, k => (run x t k).orElse (fun _ => run y t k)
  | .plus x, t, k => plusLoop (run x) (t.rest.length + 1) t k
  | .capture i x, t, k =>
    run x t (fun u =>
      k ⟨u.pos, u.rest, fun j => if j = i then some (t.pos, u.pos) else u.caps j⟩)

/-- Unanchored search: try a match at the current position, and if there is none
move one rune forward. -/
def searchFrom (re : Regexp) : Nat → Nat → GoString → Option Thread
  | 0, _, _ => none
  | fuel + 1, pos, rest =>
    match run re ⟨pos, rest, fun _ => none⟩ some with
    | some t => some ⟨t.pos, t.rest, fun j => if j = 0 then some (pos, t.pos) else t.caps j⟩
    | none =>
      match step rest with
      | none => none
      | some (_, w) => searchFrom re fuel (pos + w) (rest.drop w)

/-- Number of capturing groups of an expression (`NumSubexp`). -/
def numSubexp : Regexp → Nat
  | .concat x y => numSubexp x + numSubexp y
  | .alternate x y => numSubexp x + numSubexp y
  | .plus x => numSubexp x
  | .capture _ x => numSubexp x + 1
  | _ => 0

/-- The text of group `i` of a match: `s[begin:end]`, or the empty string for a
group that did not take part. -/
def submatch (s : GoString) (t : Thread) (i : Nat) : GoString :=
  match t.caps i with
  | some (b, e) => (s.drop b).take (e - b)
  | none => []

/-- Method `(*Regexp).FindStringSubmatch`: the text of the leftmost match of `re`
in `s` followed by the text of each capturing group; `none` is Go's `nil`. -/
def FindStringSubmatch (re : Regexp) (s : GoString) : Option (List GoString) :=
  match searchFrom re (s.length + 1) 0 s with
  | none => none
  | some t => some ((List.range (numSubexp re + 1)).map (submatch s t))

end regexp

/-- The global `validPath = regexp.MustCompile("^/(edit|save|view)/([a-zA-Z0-9]+)$")`. -/
def validPath : regexp.Regexp :=
  .concat .beginText
    (.concat (.literal '/')
      (.concat (.capture 1
          (.alternate (regexp.literals "edit".toList)
            (.alternate (regexp.literals "save".toList) (regexp.literals "view".toList))))
        (.concat (.literal '/')
          (.concat (.capture 2 (.plus (.charClass [('a', 'z'), ('A', 'Z'), ('0', '9')])))
            .endText))))

/-! ## Package `path` -/

/-- The elements of a path: the pieces between the separators `sep`. -/
def splitOn (sep : UInt8) : GoString → List GoString
  | [] => [[]]
  | c :: cs =>
    if c = sep then [] :: splitOn sep cs
    else
      match splitOn sep cs with
      | e :: es => (c :: e) :: es
      | [] => [[c]]

/-- Join path elements with `/`. -/
def joinSlash : List GoString → GoString
  | [] => []
  | [e] => e
  | e :: es => e ++ str "/" ++ joinSlash es

/-- The pass of `path.Clean` over the elements of a path, `out` being the elements
kept so far, last one first: empty and `.` elements are dropped, a `..` element
removes the element before it, or is kept when the path is not rooted and there is
nothing to remove. -/
def cleanElements (rooted : Bool) : List GoString → List GoString → List GoString
  | [], out => out
  | e :: es, out =>
    if e = [] ∨ e = str "." then cleanElements rooted es out
    else if e = str ".." then
      match out with
      | top :: out1 =>
        if top ≠ str ".." then cleanElements rooted es out1
        else cleanElements rooted es (e :: out)
      | [] => if rooted then cleanElements rooted es [] else cleanElements rooted es [e]
    else cleanElements rooted es (e :: out)

namespace path

/-- Function `path.Clean`: the shortest path name equivalent to `p`. -/
def Clean (p : GoString) : GoString :=
  match p with
  | [] => str "."
  | c :: _ =>
    let rooted := decide (c = 0x2F)
    let out := joinSlash (cleanElements rooted (splitOn 0x2F p) []).reverse
    if rooted then str "/" ++ out
    else if out = [] then str "." else out

/-- The directory part returned by `path.Split`: the path up to and including its
last slash. -/
def dir (p : GoString) : GoString :=
  (p.reverse.dropWhile (fun b => decide (b ≠ 0x2F))).reverse

end path

/-! ## The environment: files, templates, requests, responses -/

/-- What a file name may denote. -/
inductive Entry where
  /-- No file; the name can be created. -/
  | absent : Entry
  /-- A regular file: its bytes, whether the process may open it for reading, and
  whether it may open it for writing. -/
  | regular : Bytes → Bool → Bool → Entry
  /-- A device that accepts and discards what is written and reads as empty, like
  `/dev/null`. -/
  | null : Entry
  /-- A name that cannot be opened at all (its directory is missing, it is itself a
  directory, ...), with the text of the error. -/
  | blocked : GoString → Entry
deriving DecidableEq

/-- The files the process can see.  `resolve` gives the file a name denotes: the
canonical name reached once the `.` and `..` elements, the links and the case rules
of the file system have been applied, so that two names of one file resolve alike.
`files` tells what lies there.  `umask` is the file mode creation mask of the
process. -/
structure FileStore where
  resolve : GoString → GoString
  files : GoString → Entry
  umask : Nat

/-- One file operation requested from the operating system. -/
inductive FileOp where
  | read : GoString → FileOp
  | write : GoString → FileOp
deriving DecidableEq

/-- The name of the file an operation is about. -/
def FileOp.name : FileOp → GoString
  | .read n => n
  | .write n => n

/-- The state outside the process: the file store and the trace of every file
operation requested so far, oldest first. -/
structure World where
  fs : FileStore
  trace : List FileOp

namespace ioutil

/-- Function `ioutil.ReadFile`: the contents of the named file, or an error. -/
def ReadFile (world : World) (filename : GoString) : World × Except GoString Bytes :=
  let world1 : World := ⟨world.fs, world.trace ++ [FileOp.read filename]⟩
  match world.fs.files (world.fs.resolve filename) with
  | .absent =>
    (world1, .error (str "open " ++ filename ++ str ": no such file or directory"))
  | .regular data mayRead _ =>
    if mayRead then (world1, .ok data)
    else (world1, .error (str "open " ++ filename ++ str ": permission denied"))
  | .null => (world1, .ok [])
  | .blocked e => (world1, .error e)

/-- Function `ioutil.WriteFile`: write `data` to the named file.  A file that does
not exist is created with permissions `perm` (before umask); an existing regular
file is truncated and keeps its permissions, and must be open to writing.  The
result is the error, `none` being Go's `nil`; an error is a failure to open the
file, which leaves the store as it was. -/
def WriteFile (world : World) (filename : GoString) (data : Bytes) (perm : Nat) :
    World × Option GoString :=
  let trace1 := world.trace ++ [FileOp.write filename]
  let key := world.fs.resolve filename
  match world.fs.files key with
  | .absent =>
    (⟨⟨world.fs.resolve,
        fun k => if k = key then
            .regular data (perm.testBit 8 && !world.fs.umask.testBit 8)
              (perm.testBit 7 && !world.fs.umask.testBit 7)
          else world.fs.files k,
        world.fs.umask⟩, trace1⟩, none)
  | .regular _ mayRead mayWrite =>
    if mayWrite then
      (⟨⟨world.fs.resolve,
          fun k => if k = key then .regular data mayRead mayWrite else world.fs.files k,
          world.fs.umask⟩, trace1⟩, none)
    else (⟨world.fs, trace1⟩, some (str "open " ++ filename ++ str ": permission denied"))
  | .null => (⟨world.fs, trace1⟩, none)
  | .blocked e => (⟨world.fs, trace1⟩, some e)

end ioutil

/-- The Page struct describes how page data will be stored in memory. -/
structure Page where
  Title : GoString
  Body : Bytes
deriving DecidableEq

/-- The template set held by the global `templates`, parsed at start-up from the
files `tmpl/edit.html` and `tmpl/view.html`.  The development is parametric in it:
executing the template of a given name on a page makes some calls of `Write` on
the response writer, each with its bytes, and may then stop with an error, whose
text is returned. -/
abbrev Templates := GoString → Page → List Bytes × Option GoString

/-- An incoming `*http.Request`, as far as the program and the server look at it. -/
structure Request where
  Method : GoString
  RequestURI : GoString
  Path : GoString
  Form : List (GoString × GoString)

/-- Method `(*Request).FormValue`: the first value of the named form field, the
empty string when there is none. -/
def Request.FormValue (r : Request) (key : GoString) : GoString :=
  match r.Form.find? (fun kv => decide (kv.1 = key)) with
  | some kv => kv.2
  | none => []

namespace http

/-- One call made on the response writer. -/
inductive Effect where
  /-- A call `w.WriteHeader(code)` with no body. -/
  | writeHeader : Nat → Effect
  /-- A call `http.Error(w, msg, code)`. -/
  | error : GoString → Nat → Effect
  /-- A call of `http.Redirect` that sets the header `Location` to the given value
  and sends the given status. -/
  | redirect : GoString → Nat → Effect
  /-- A call `templates.ExecuteTemplate(w, name, p)` with the calls of `Write` it
  made on `w`. -/
  | execute : GoString → Page → List Bytes → Effect
deriving DecidableEq

/-- The `http.ResponseWriter` of one request: the calls made on it, in order. -/
abbrev ResponseWriter := List Effect

def StatusOK : Nat := 200
def StatusMovedPermanently : Nat := 301
def StatusFound : Nat := 302
def StatusBadRequest : Nat := 400
def StatusNotFound : Nat := 404
def StatusInternalServerError : Nat := 500

/-- The status line the client receives: that of the first call that sends the
header.  The first `Write` of a template, even of no bytes, sends `200`; a handler
that returns without writing anything also yields `200`. -/
def status : ResponseWriter → Nat
  | [] => StatusOK
  | .writeHeader code :: _ => code
  | .error _ code :: _ => code
  | .redirect _ code :: _ => code
  | .execute _ _ out :: w => if out = [] then status w else StatusOK

/-- The header `Location` the client receives, if the response is a redirect. -/
def location : ResponseWriter → Option GoString
  | [] => none
  | .writeHeader _ :: _ => none
  | .error _ _ :: _ => none
  | .redirect url _ :: _ => some url
  | .execute _ _ out :: w => if out = [] then location w else none

/-- Function `http.Error`. -/
def Error (w : ResponseWriter) (msg : GoString) (code : Nat) : ResponseWriter :=
  w ++ [Effect.error msg code]

/-- Function `http.NotFound`. -/
def NotFound (w : ResponseWriter) (_r : Request) : ResponseWriter :=
  Error w (str "404 page not found") StatusNotFound

/-- An ASCII control byte (`stringContainsCTLByte` of `net/url`). -/
def isCTL (b : UInt8) : Bool :=
  decide (b.toNat < 0x20) || decide (b.toNat = 0x7F)

/-- A hexadecimal digit (`ishex` of `net/url`). -/
def isHex (b : UInt8) : Bool :=
  (decide (0x30 ≤ b.toNat) && decide (b.toNat ≤ 0x39)) ||
  (decide (0x61 ≤ b.toNat) && decide (b.toNat ≤ 0x66)) ||
  (decide (0x41 ≤ b.toNat) && decide (b.toNat ≤ 0x46))

/-- Every `%` is followed by two hexadecimal digits (what `unescape` of `net/url`
requires of a path or a fragment). -/
def validEscapes : GoString → Bool
  | [] => true
  | c :: cs =>
    if c = 0x25 then
      match cs with
      | a :: b :: rest => isHex a && isHex b && validEscapes rest
      | _ => false
    else validEscapes cs

/-- Function `getScheme` of `net/url`, reading from byte `i` on: `none` is an
error, `some false` no scheme, `some true` a scheme. -/
def getScheme : GoString → Nat → Option Bool
  | [], _ => some false
  | c :: cs, i =>
    if (decide (0x61 ≤ c.toNat) && decide (c.toNat ≤ 0x7A)) ||
        (decide (0x41 ≤ c.toNat) && decide (c.toNat ≤ 0x5A)) then getScheme cs (i + 1)
    else if (decide (0x30 ≤ c.toNat) && decide (c.toNat ≤ 0x39)) ||
        c = 0x2B || c = 0x2D || c = 0x2E then
      if i = 0 then some false else getScheme cs (i + 1)
    else if c = 0x3A then
      if i = 0 then none else some true
    else some false

/-- The test made by `http.Redirect` on its URL: `url.Parse` succeeds and finds
neither a scheme nor a host.  For a URL that begins with one slash, as do all the
URLs this program redirects to, that is: no control byte, and well-formed percent
escapes in the path and in the fragment. -/
def isLocalURL (url : GoString) : Bool :=
  let u := url.takeWhile (fun b => decide (b ≠ 0x23))
  let frag := (url.dropWhile (fun b => decide (b ≠ 0x23))).drop 1
  let rest := u.takeWhile (fun b => decide (b ≠ 0x3F))
  if u.any isCTL then false
  else if getScheme u 0 ≠ some false then false
  else if rest.head? ≠ some 0x2F ∧ 0x3A ∈ rest.takeWhile (fun b => decide (b ≠ 0x2F)) then false
  else if (str "//").isPrefixOf rest ∧ ¬ (str "///").isPrefixOf rest ∧ rest ≠ str "//" then false
  else validEscapes rest && validEscapes frag

/-- One hexadecimal digit in lower case (`strconv.AppendInt` in base 16). -/
def hexDigit (n : Nat) : UInt8 :=
  if n < 10 then UInt8.ofNat (0x30 + n) else UInt8.ofNat (0x57 + n)

/-- Function `hexEscapeNonASCII` of `net/http`: every byte from `0x80` on is
replaced by `%` and its two hexadecimal digits. -/
def hexEscapeNonASCII : GoString → GoString
  | [] => []
  | c :: cs =>
    if c.toNat < 0x80 then c :: hexEscapeNonASCII cs
    else 0x25 :: hexDigit (c.toNat / 16) :: hexDigit (c.toNat % 16) :: hexEscapeNonASCII cs

/-- The value `http.Redirect` gives the header `Location`: a URL without scheme and
host is made absolute with the directory of the request path, its path is cleaned
with `path.Clean` (a final slash is kept, the query is left alone), and bytes that
are not ASCII are percent-escaped. -/
def redirectLocation (r : Request) (url : GoString) : GoString :=
  if isLocalURL url then
    let oldpath := if r.Path = [] then str "/" else r.Path
    let url1 := if url.head? ≠ some 0x2F then path.dir oldpath ++ url else url
    let p := url1.takeWhile (fun b => decide (b ≠ 0x3F))
    let query := url1.dropWhile (fun b => decide (b ≠ 0x3F))
    let c := path.Clean p
    let c1 := if p.getLast? = some 0x2F ∧ c.getLast? ≠ some 0x2F then c ++ str "/" else c
    hexEscapeNonASCII (c1 ++ query)
  else hexEscapeNonASCII url

/-- Function `http.Redirect`: sets the header `Location` and sends the status. -/
def Redirect (w : ResponseWriter) (r : Request) (url : GoString) (code : Nat) :
    ResponseWriter :=
  w ++ [Effect.redirect (redirectLocation r url) code]

/-- A handler: what it does to the world and to the response writer. -/
abbrev HandlerFunc := World → ResponseWriter → Request → World × ResponseWriter

end http

/-- Method `(*Template).ExecuteTemplate` on the global `templates`: the output goes
to `w`, the error (if any) is returned. -/
def ExecuteTemplate (templates : Templates) (w : http.ResponseWriter) (name : GoString)
    (p : Page) : http.ResponseWriter × Option GoString :=
  (w ++ [http.Effect.execute name p (templates name p).1], (templates name p).2)

/-! ## The program `wiki.go` -/

/-- Method `save` saves the Page's Body to a text file, using the Title as the
file name. -/
def Page.save (p : Page) (world : World) : World × Option GoString :=
  let filename := str "data/" ++ p.Title ++ str ".txt"
  ioutil.WriteFile world filename p.Body 0o600

/-- Function `loadPage` constructs the file name from the title, reads the file and
returns a Page with that title and the bytes read. -/
def loadPage (world : World) (title : GoString) : World × Except GoString Page :=
  let filename := str "data/" ++ title ++ str ".txt"
  match ioutil.ReadFile world filename with
  | (world1, .error err) => (world1, .error err)
  | (world1, .ok body) => (world1, .ok ⟨title, body⟩)

/-- Function `renderTemplate`. -/
def renderTemplate (templates : Templates) (w : http.ResponseWriter) (tmpl : GoString)
    (p : Page) : http.ResponseWriter :=
  match ExecuteTemplate templates w (tmpl ++ str ".html") p with
  | (w1, some err) => http.Error w1 err http.StatusInternalServerError
  | (w1, none) => w1

/-- Function `viewHandler`. -/
def viewHandler (templates : Templates) (world : World) (w : http.ResponseWriter)
    (r : Request) (title : GoString) : World × http.ResponseWriter :=
  match loadPage world title with
  | (world1, .error _) => (world1, http.Redirect w r (str "/edit/" ++ title) http.StatusFound)
  | (world1, .ok p) => (world1, renderTemplate templates w (str "view") p)

/-- Function `editHandler`. -/
def editHandler (templates : Templates) (world : World) (w : http.ResponseWriter)
    (_r : Request) (title : GoString) : World × http.ResponseWriter :=
  match loadPage world title with
  | (world1, .error _) => (world1, renderTemplate templates w (str "edit") ⟨title, []⟩)
  | (world1, .ok p) => (world1, renderTemplate templates w (str "edit") p)

/-- Function `saveHandler`. -/
def saveHandler (world : World) (w : http.ResponseWriter) (r : Request)
    (title : GoString) : World × http.ResponseWriter :=
  let body := r.FormValue (str "body")
  let p : Page := ⟨title, body⟩
  match p.save world with
  | (world1, some err) => (world1, http.Error w err http.StatusInternalServerError)
  | (world1, none) => (world1, http.Redirect w r (str "/view/" ++ title) http.StatusFound)

/-- Function `makeHandler` wraps a title-taking handler into an `http.HandlerFunc`. -/
def makeHandler (fn : World → http.ResponseWriter → Request → GoString →
    World × http.ResponseWriter) : http.HandlerFunc :=
  fun world w r =>
    match regexp.FindStringSubmatch validPath r.Path with
    | none => (world, http.NotFound w r)
    | some m => fn world w r (m.getD 2 [])

/-! ## Package `net/http`: the server and its request multiplexer -/

namespace http

/-- Function `cleanPath` of `net/http`: the canonical path for `p`, eliminating
`.` and `..` elements and keeping a trailing slash. -/
def cleanPath (p : GoString) : GoString :=
  if p = [] then str "/"
  else
    let p1 := if p.head? ≠ some 0x2F then str "/" ++ p else p
    let np := path.Clean p1
    if p1.getLast? = some 0x2F ∧ np ≠ str "/" then np ++ str "/" else np

/-- The handlers registered with `http.HandleFunc`, each under its pattern. -/
abbrev ServeMux := List (GoString × HandlerFunc)

/-- Function `strings.HasPrefix`. -/
def startsWith (s pre : GoString) : Bool :=
  pre.isPrefixOf s

/-- The entry with the longest pattern among those that end in a slash and begin
the path. -/
def longestMatch (path : GoString) : ServeMux → Option (GoString × HandlerFunc) →
    Option (GoString × HandlerFunc)
  | [], best => best
  | e :: es, best =>
    if e.1.getLast? = some 0x2F ∧ startsWith path e.1 = true ∧
        (match best with
          | some b => decide (b.1.length < e.1.length)
          | none => true) = true
    then longestMatch path es (some e)
    else longestMatch path es best

/-- Method `(*ServeMux).match`: an exact match of the pattern first, then the
longest pattern rooting a subtree that contains the path. -/
def ServeMux.find (mux : ServeMux) (path : GoString) : Option (GoString × HandlerFunc) :=
  match List.find? (fun e => decide (e.1 = path)) mux with
  | some e => some e
  | none => longestMatch path mux none

/-- Method `(*ServeMux).shouldRedirectRLocked`: the path names a registered subtree
without its trailing slash. -/
def ServeMux.shouldRedirect (mux : ServeMux) (path : GoString) : Bool :=
  if mux.any (fun e => decide (e.1 = path)) then false
  else if path = [] then false
  else if mux.any (fun e => decide (e.1 = path ++ str "/")) then
    decide (path.getLast? ≠ some 0x2F)
  else false

/-- Method `(*ServeMux).handler`: the registered handler for the path, or the
"not found" handler. -/
def ServeMux.handler (mux : ServeMux) (path : GoString) : HandlerFunc :=
  match mux.find path with
  | some e => e.2
  | none => fun world w r => (world, NotFound w r)

/-- One hexadecimal digit in upper case. -/
def upperHex (n : Nat) : UInt8 :=
  if n < 10 then UInt8.ofNat (0x30 + n) else UInt8.ofNat (0x37 + n)

/-- The bytes `net/url` leaves as they are when it writes a path: letters, digits
and `-_.~$&+,/:;=@`. -/
def plainInPath (c : UInt8) : Bool :=
  (decide (0x61 ≤ c.toNat) && decide (c.toNat ≤ 0x7A)) ||
  (decide (0x41 ≤ c.toNat) && decide (c.toNat ≤ 0x5A)) ||
  (decide (0x30 ≤ c.toNat) && decide (c.toNat ≤ 0x39)) ||
  (str "-_.~$&+,/:;=@").contains c

/-- The text of the URL made of a rooted path alone (`(*URL).String`): every byte
that is not plain in a path is percent-escaped. -/
def escapePath : GoString → GoString
  | [] => []
  | c :: cs =>
    if plainInPath c then c :: escapePath cs
    else 0x25 :: upperHex (c.toNat / 16) :: upperHex (c.toNat % 16) :: escapePath cs

/-- Function `http.RedirectHandler`. -/
def RedirectHandler (url : GoString) (code : Nat) : HandlerFunc :=
  fun world w r => (world, Redirect w r url code)

/-- Method `(*ServeMux).Handler`: the handler to use for the request.  A request
other than `CONNECT` whose path is not canonical is redirected to the canonical
path; a path naming a registered subtree without its slash is redirected to the
subtree root.  (The redirect carries the query of the request along; only the path
is kept here.) -/
def ServeMux.Handler (mux : ServeMux) (r : Request) : HandlerFunc :=
  if r.Method = str "CONNECT" then
    if mux.shouldRedirect r.Path then
      RedirectHandler (escapePath (r.Path ++ str "/")) StatusMovedPermanently
    else mux.handler r.Path
  else
    let path := cleanPath r.Path
    if mux.shouldRedirect path then
      RedirectHandler (escapePath (path ++ str "/")) StatusMovedPermanently
    else if path ≠ r.Path then RedirectHandler (escapePath path) StatusMovedPermanently
    else mux.handler r.Path

/-- Method `(*ServeMux).ServeHTTP`: dispatch the request to the handler whose
pattern most closely matches its path; the request target `*` is a bad request. -/
def ServeMux.ServeHTTP (mux : ServeMux) : HandlerFunc :=
  fun world w r =>
    if r.RequestURI = str "*" then (world, w ++ [Effect.writeHeader StatusBadRequest])
    else mux.Handler r world w r

/-- The handler `globalOptionsHandler`, which answers `OPTIONS *`: it writes
neither a status nor a body, so the response is an empty `200`. -/
def globalOptionsHandler : HandlerFunc :=
  fun world w _ => (world, w)

/-- Method `serverHandler.ServeHTTP` of a server started with a `nil` handler, as
by `http.ListenAndServe(addr, nil)`: the request `OPTIONS *` is answered by the
server itself, every other request goes to the default multiplexer. -/
def serverHandler (mux : ServeMux) : HandlerFunc :=
  fun world w r =>
    if r.RequestURI = str "*" ∧ r.Method = str "OPTIONS" then globalOptionsHandler world w r
    else mux.ServeHTTP world w r

end http

/-- Function `main`: the three routes registered on the default multiplexer, which
`http.ListenAndServe(":8080", nil)` then serves. -/
def main (templates : Templates) : http.ServeMux :=
  [(str "/view/", makeHandler (viewHandler templates)),
   (str "/edit/", makeHandler (editHandler templates)),
   (str "/save/", makeHandler saveHandler)]

/-- The server started by `main` at work on one request: the response and the world
it leaves. -/
def serve (templates : Templates) (world : World) (r : Request) :
    World × http.ResponseWriter :=
  http.serverHandler (main templates) world [] r

/-! ## Vocabulary of the specification -/

/-- An ASCII letter or digit: a byte among `a-z`, `A-Z`, `0-9`. -/
def isAlnum (b : UInt8) : Bool :=
  (decide (0x61 ≤ b.toNat) && decide (b.toNat ≤ 0x7A)) ||
  (decide (0x41 ≤ b.toNat) && decide (b.toNat ≤ 0x5A)) ||
  (decide (0x30 ≤ b.toNat) && decide (b.toNat ≤ 0x39))

/-- A title in the sense of the specification, `^[a-zA-Z0-9]+$`: one or more
bytes, each an ASCII letter or digit. -/
def alphanumeric (title : GoString) : Prop :=
  title ≠ [] ∧ ∀ b ∈ title, isAlnum b = true

/-- The operation names that may begin a path. -/
def operations : List GoString :=
  [str "edit", str "save", str "view"]

/-- The paths of the form `/(view|edit|save)/<title>` with an alphanumeric title
and nothing before or after. -/
def PathForm (p : GoString) : Prop :=
  ∃ op title, op ∈ operations ∧ alphanumeric title ∧ p = str "/" ++ op ++ str "/" ++ title

/-- The file in which the page of a given title is kept. -/
def fileOf (title : GoString) : GoString :=
  str "data/" ++ title ++ str ".txt"

/-- The named file gives back what `Page.save` writes to it: it does not exist and
the umask leaves the read permission of the mode `0600` it is created with, or it
is a regular file that the process may read. -/
def readBack (fs : FileStore) (name : GoString) : Bool :=
  match fs.files (fs.resolve name) with
  | .absent => !fs.umask.testBit 8
  | .regular _ mayRead _ => mayRead
  | .null => false
  | .blocked _ => false

/-- A store with no file, whose names are resolved by their spelling alone. -/
def emptyStore : FileStore :=
  ⟨path.Clean, fun _ => .absent, 0o022⟩

/-- A request with the given method, path and form fields. -/
def request (method path : String) (form : List (String × String)) : Request :=
  ⟨str method, str path, str path, form.map (fun kv => (str kv.1, str kv.2))⟩

/-- A template set that writes the body of the page. -/
def plainTemplates : Templates :=
  fun _ p => ([p.Body], none)

/-- A file operation that stays inside the page directory: its name is
`data/` ++ t ++ `.txt` for an alphanumeric `t` that is the title of the request
path; the name therefore has no `..` and exactly one slash. -/
def safeAccess (path : GoString) (op : FileOp) : Prop :=
  ∃ t, op.name = str "data/" ++ t ++ str ".txt" ∧ alphanumeric t ∧
    (∃ o ∈ operations, path = str "/" ++ o ++ str "/" ++ t) ∧
    ¬ (str ".." <:+: op.name) ∧ op.name.count 0x2F = 1

/-- The response `resp` renders template `name` with page `p`: it is what
`renderTemplate` produces, it begins with the execution of `name.html` on `p`,
and it contains no redirect. -/
def Renders (templates : Templates) (name : GoString) (p : Page)
    (resp : http.ResponseWriter) : Prop :=
  resp = renderTemplate templates [] name p ∧
  resp.head? = some (http.Effect.execute (name ++ str ".html") p
    (templates (name ++ str ".html") p).1) ∧
  (∀ url code, http.Effect.redirect url code ∉ resp) ∧
  http.location resp = none

/-- A template set whose execution fails before anything is written. -/
def failingTemplates : Templates :=
  fun _ _ => ([], some (str "template: execution failed"))

/-- A world in which the page `Test` already holds the text `old`. -/
def worldWithTest : World :=
  ⟨⟨path.Clean,
    fun k => if k = fileOf (str "Test") then .regular (str "old") true true else .absent,
    0o022⟩, []⟩

/-- A world in which the directory `data` is missing: every open of a file fails. -/
def worldNoData : World :=
  ⟨⟨path.Clean,
    fun k => .blocked (str "open " ++ k ++ str ": no such file or directory"),
    0o022⟩, []⟩

/-- A world in which the file of the page `Test` has mode `0200`: the process may
write it and may not read it. -/
def worldWriteOnly : World :=
  ⟨⟨path.Clean,
    fun k => if k = fileOf (str "Test") then .regular (str "old") false true else .absent,
    0o022⟩, []⟩

/-- A world in which `data/Test.txt` is a link to the device `/dev/null`. -/
def worldNullLink : World :=
  ⟨⟨fun n => if path.Clean n = fileOf (str "Test") then str "/dev/null" else path.Clean n,
    fun k => if k = str "/dev/null" then .null else .absent,
    0o022⟩, []⟩

/-! ## Auxiliary definitions for the proofs -/

namespace regexp

/-- The ranges of the class `[a-zA-Z0-9]`. -/
def alnumRanges : List (Char × Char) := [('a', 'z'), ('A', 'Z'), ('0', '9')]

/-- The continuation that closes group `i`, opened at `start`, and requires the end of the text. -/
def closeAtEnd (i start : Nat) (u : Thread) : Option Thread :=
  if u.rest = [] then
    some ⟨u.pos, u.rest, fun j => if j = i then some (start, u.pos) else u.caps j⟩
  else none

/-- The part of `validPath` after the operation: `/([a-zA-Z0-9]+)$`. -/
def titlePart : Regexp :=
  .concat (.literal '/') (.concat (.capture 2 (.plus (.charClass alnumRanges))) .endText)

end regexp

/-! ## Lemmas: decoding and matching -/

section MatchingLemmas

open regexp

theorem decode_ge (b : UInt8) (tl : GoString) (h : 0x80 ≤ b.toNat) :
    0x80 ≤ (utf8.DecodeRuneInString (b :: tl)).1 := by
  unfold utf8.DecodeRuneInString
  simp only [utf8.RuneError, utf8.inRange]
  repeat' split
  all_goals simp at *
  all_goals omega

theorem step_cons (b : UInt8) (tl : GoString) :
    ∃ r w, regexp.step (b :: tl) = some (r, w) ∧
      (b.toNat < 0x80 → r = b.toNat ∧ w = 1) ∧ (0x80 ≤ b.toNat → 0x80 ≤ r) := by
  unfold regexp.step
  by_cases h : b.toNat < 0x80
  · exact ⟨b.toNat, 1, by simp [h], fun _ => ⟨rfl, rfl⟩, fun h2 => by omega⟩
  · refine ⟨(utf8.DecodeRuneInString (b :: tl)).1, (utf8.DecodeRuneInString (b :: tl)).2, by simp [h],
      fun h2 => absurd h2 h, fun h2 => decode_ge b tl h2⟩

theorem matchRune_nil (p : Nat → Bool) (pos : Nat) (caps : Nat → Option (Nat × Nat))
    (k : regexp.Thread → Option regexp.Thread) :
    regexp.matchRune p ⟨pos, [], caps⟩ k = none := by
  simp [regexp.matchRune, regexp.step]

theorem matchRune_cons (p : Nat → Bool) (hp : ∀ r, p r = true → r < 0x80) (pos : Nat) (b : UInt8)
    (tl : GoString) (caps : Nat → Option (Nat × Nat)) (k : regexp.Thread → Option regexp.Thread) :
    regexp.matchRune p ⟨pos, b :: tl, caps⟩ k =
      if p b.toNat = true then k ⟨pos + 1, tl, caps⟩ else none := by
  obtain ⟨r, w, hs, h1, h2⟩ := step_cons b tl
  simp only [regexp.matchRune, hs]
  by_cases hb : b.toNat < 0x80
  · obtain ⟨rfl, rfl⟩ := h1 hb
    simp
  · have hr : p r = false := by
      by_contra hc
      have := hp r (by simpa using hc)
      have := h2 (by omega)
      omega
    have hb2 : p b.toNat = false := by
      by_contra hc
      have := hp _ (by simpa using hc)
      omega
    simp [hr, hb2]

theorem inClass_alnum_lt (r : Nat) (h : inClass alnumRanges r = true) : r < 0x80 := by
  simp [inClass, alnumRanges] at h
  omega

theorem inClass_alnum_byte (b : UInt8) : inClass alnumRanges b.toNat = isAlnum b := by
  simp [inClass, alnumRanges, isAlnum, Bool.or_assoc]

theorem run_literal_nil (c : Char) (pos : Nat) (caps : Nat → Option (Nat × Nat))
    (k : Thread → Option Thread) :
    run (.literal c) ⟨pos, [], caps⟩ k = none := by
  simp [run, matchRune_nil]

theorem run_literal_cons (c : Char) (hc : c.toNat < 0x80) (pos : Nat) (b : UInt8)
    (tl : GoString) (caps : Nat → Option (Nat × Nat)) (k : Thread → Option Thread) :
    run (.literal c) ⟨pos, b :: tl, caps⟩ k =
      if b.toNat = c.toNat then k ⟨pos + 1, tl, caps⟩ else none := by
  rw [run, matchRune_cons _ (fun r hr => by simp at hr; omega)]
  simp

theorem run_class_nil (pos : Nat) (caps : Nat → Option (Nat × Nat))
    (k : Thread → Option Thread) :
    run (.charClass alnumRanges) ⟨pos, [], caps⟩ k = none := by
  simp [run, matchRune_nil]

theorem run_class_cons (pos : Nat) (b : UInt8)
    (tl : GoString) (caps : Nat → Option (Nat × Nat)) (k : Thread → Option Thread) :
    run (.charClass alnumRanges) ⟨pos, b :: tl, caps⟩ k =
      if isAlnum b = true then k ⟨pos + 1, tl, caps⟩ else none := by
  rw [run, matchRune_cons _ inClass_alnum_lt, inClass_alnum_byte]

theorem plusLoop_alnum (i start : Nat) (caps : Nat → Option (Nat × Nat)) :
    ∀ (rest : GoString) (fuel pos : Nat), rest.length < fuel →
      plusLoop (run (.charClass alnumRanges)) fuel ⟨pos, rest, caps⟩ (closeAtEnd i start) =
        if rest ≠ [] ∧ ∀ b ∈ rest, isAlnum b = true then
          some ⟨pos + rest.length, [], fun j => if j = i then some (start, pos + rest.length) else caps j⟩
        else none := by
  intro rest
  induction rest with
  | nil =>
    intro fuel pos hf
    cases fuel with
    | zero => simp at hf
    | succ f => simp [plusLoop, run_class_nil]
  | cons b tl ih =>
    intro fuel pos hf
    cases fuel with
    | zero => simp at hf
    | succ f =>
      have hf2 : tl.length < f := by simpa using hf
      rw [plusLoop, run_class_cons]
      by_cases hb : isAlnum b = true
      · simp only [hb, if_true, List.length_cons, Nat.lt_succ_self]
        rw [ih f (pos + 1) hf2]
        by_cases ht : tl = []
        · subst ht
          simp [closeAtEnd, hb]
        · by_cases ha : ∀ b ∈ tl, isAlnum b = true
          · have hall : ∀ x ∈ b :: tl, isAlnum x = true := by
              intro x hx
              rcases List.mem_cons.mp hx with rfl | hx
              · exact hb
              · exact ha x hx
            rw [if_pos ⟨ht, ha⟩, if_pos ⟨List.cons_ne_nil b tl, hall⟩]
            simp [Nat.add_assoc, Nat.add_comm 1]
          · have hall : ¬ ∀ x ∈ b :: tl, isAlnum x = true :=
              fun h => ha (fun x hx => h x (List.mem_cons_of_mem b hx))
            rw [if_neg (fun h => ha h.2), if_neg (fun h => hall h.2)]
            simp [closeAtEnd, ht]
      · simp [hb]

theorem run_titlePart (pos : Nat) (rest : GoString) (caps : Nat → Option (Nat × Nat)) :
    run titlePart ⟨pos, rest, caps⟩ some =
      match rest with
      | [] => none
      | s :: title =>
        if s.toNat = 47 ∧ title ≠ [] ∧ ∀ b ∈ title, isAlnum b = true then
          some ⟨pos + 1 + title.length, [],
            fun j => if j = 2 then some (pos + 1, pos + 1 + title.length) else caps j⟩
        else none := by
  cases rest with
  | nil => simp [titlePart, run, matchRune_nil]
  | cons s title =>
    have hk : (fun u : Thread => run Regexp.endText
        ⟨u.pos, u.rest, fun j => if j = 2 then some (pos + 1, u.pos) else u.caps j⟩ some) =
        closeAtEnd 2 (pos + 1) := by
      funext u
      simp [run, closeAtEnd]
    rw [titlePart, run, run_literal_cons _ (by decide)]
    by_cases hs : s.toNat = 47
    · have hs2 : s.toNat = '/'.toNat := hs
      simp only [hs2, if_true]
      rw [run, run, run]
      simp only []
      rw [hk, plusLoop_alnum 2 (pos + 1) caps title _ (pos + 1) (Nat.lt_succ_self _)]
      simp [hs]
    · have hs2 : ¬ s.toNat = '/'.toNat := hs
      simp [hs2, hs]

theorem run_concat (x y : Regexp) (t : Thread) (k : Thread → Option Thread) :
    run (.concat x y) t k = run x t (fun u => run y u k) := by
  rw [run]

theorem run_alternate (x y : Regexp) (t : Thread) (k : Thread → Option Thread) :
    run (.alternate x y) t k = (run x t k).orElse (fun _ => run y t k) := by
  rw [run]

theorem run_capture (i : Nat) (x : Regexp) (t : Thread) (k : Thread → Option Thread) :
    run (.capture i x) t k =
      run x t (fun u =>
        k ⟨u.pos, u.rest, fun j => if j = i then some (t.pos, u.pos) else u.caps j⟩) := by
  rw [run]

theorem run_beginText (t : Thread) (k : Thread → Option Thread) :
    run .beginText t k = if t.pos = 0 then k t else none := by
  rw [run]

theorem run_lit4 (c1 c2 c3 c4 : Char) (h1 : c1.toNat < 0x80) (h2 : c2.toNat < 0x80)
    (h3 : c3.toNat < 0x80) (h4 : c4.toNat < 0x80) (pos : Nat) (rest : GoString)
    (caps : Nat → Option (Nat × Nat)) (k : Thread → Option Thread) :
    run (literals [c1, c2, c3, c4]) ⟨pos, rest, caps⟩ k =
      match rest with
      | b1 :: b2 :: b3 :: b4 :: tl =>
        if b1.toNat = c1.toNat ∧ b2.toNat = c2.toNat ∧ b3.toNat = c3.toNat ∧ b4.toNat = c4.toNat
        then k ⟨pos + 4, tl, caps⟩ else none
      | _ => none := by
  have e1 := run_literal_cons c1 h1
  have e2 := run_literal_cons c2 h2
  have e3 := run_literal_cons c3 h3
  have e4 := run_literal_cons c4 h4
  rcases rest with _ | ⟨b1, _ | ⟨b2, _ | ⟨b3, _ | ⟨b4, tl⟩⟩⟩⟩ <;>
    simp only [literals, run_concat, run_literal_nil, e1, e2, e3, e4] <;>
    (repeat' split) <;> simp_all [Nat.add_assoc]

theorem toNat_eq_iff (b : UInt8) (n : Nat) (hn : n < 256) : b.toNat = n ↔ b = UInt8.ofNat n := by
  constructor
  · intro h
    apply UInt8.toNat.inj
    rw [h, UInt8.toNat_ofNat_of_lt hn]
  · intro h
    rw [h, UInt8.toNat_ofNat_of_lt hn]

theorem validPath_eq : validPath =
    .concat .beginText (.concat (.literal '/')
      (.concat (.capture 1 (.alternate (literals ['e', 'd', 'i', 't'])
        (.alternate (literals ['s', 'a', 'v', 'e']) (literals ['v', 'i', 'e', 'w']))))
      titlePart)) := rfl

theorem operations_eq : operations =
    [[101, 100, 105, 116], [115, 97, 118, 101], [118, 105, 101, 119]] := by decide

theorem run_validPath (path : GoString) (caps0 : Nat → Option (Nat × Nat)) :
    run validPath ⟨0, path, caps0⟩ some =
      match path with
      | s :: b1 :: b2 :: b3 :: b4 :: s2 :: title =>
        if s = 47 ∧ [b1, b2, b3, b4] ∈ operations ∧ s2 = 47 ∧ title ≠ [] ∧
            ∀ b ∈ title, isAlnum b = true then
          some ⟨6 + title.length, [],
            fun j => if j = 2 then some (6, 6 + title.length)
              else if j = 1 then some (1, 5) else caps0 j⟩
        else none
      | _ => none := by
  have e1 := run_lit4 'e' 'd' 'i' 't' (by decide) (by decide) (by decide) (by decide)
  have e2 := run_lit4 's' 'a' 'v' 'e' (by decide) (by decide) (by decide) (by decide)
  have e3 := run_lit4 'v' 'i' 'e' 'w' (by decide) (by decide) (by decide) (by decide)
  have el := run_literal_cons '/' (by decide)
  rw [validPath_eq, run_concat, run_beginText]
  simp only [if_true, run_concat, run_capture, run_alternate]
  rcases path with _ | ⟨s, p1⟩
  · simp [run_literal_nil]
  rw [el]
  by_cases hs : s.toNat = '/'.toNat
  swap
  · have hs2 : ¬ s = 47 := fun h => hs (by rw [h]; rfl)
    simp only [hs, if_false]
    rcases p1 with _ | ⟨b1, _ | ⟨b2, _ | ⟨b3, _ | ⟨b4, _ | ⟨s2, title⟩⟩⟩⟩⟩ <;> simp [hs2]
  have hs2 : s = 47 := (toNat_eq_iff s 47 (by decide)).mp hs
  simp only [hs, if_true, e1, e2, e3]
  rcases p1 with _ | ⟨b1, _ | ⟨b2, _ | ⟨b3, _ | ⟨b4, tl⟩⟩⟩⟩ <;> try simp
  simp only [run_titlePart]
  rcases tl with _ | ⟨s2, title⟩
  · simp
  simp only [operations_eq, hs2, List.mem_cons, List.cons.injEq, and_true, List.mem_singleton,
    List.not_mem_nil, or_false, toNat_eq_iff _ _ (show 47 < 256 by decide)]
  have key : ∀ c1 c2 c3 c4 : UInt8,
      (b1.toNat = c1.toNat ∧ b2.toNat = c2.toNat ∧ b3.toNat = c3.toNat ∧ b4.toNat = c4.toNat) ↔
        (b1 = c1 ∧ b2 = c2 ∧ b3 = c3 ∧ b4 = c4) := by
    intro c1 c2 c3 c4
    constructor
    · rintro ⟨h1, h2, h3, h4⟩
      exact ⟨UInt8.toNat.inj h1, UInt8.toNat.inj h2, UInt8.toNat.inj h3, UInt8.toNat.inj h4⟩
    · rintro ⟨rfl, rfl, rfl, rfl⟩
      exact ⟨rfl, rfl, rfl, rfl⟩
  have kE : (b1.toNat = 101 ∧ b2.toNat = 100 ∧ b3.toNat = 105 ∧ b4.toNat = 116) ↔
      (b1 = 101 ∧ b2 = 100 ∧ b3 = 105 ∧ b4 = 116) := key 101 100 105 116
  have kS : (b1.toNat = 115 ∧ b2.toNat = 97 ∧ b3.toNat = 118 ∧ b4.toNat = 101) ↔
      (b1 = 115 ∧ b2 = 97 ∧ b3 = 118 ∧ b4 = 101) := key 115 97 118 101
  have kV : (b1.toNat = 118 ∧ b2.toNat = 105 ∧ b3.toNat = 101 ∧ b4.toNat = 119) ↔
      (b1 = 118 ∧ b2 = 105 ∧ b3 = 101 ∧ b4 = 119) := key 118 105 101 119
  have k47 : UInt8.ofNat 47 = 47 := rfl
  simp only [kE, kS, kV, k47, true_and]
  have h6 : 5 + 1 = 6 := rfl
  simp only [h6]
  by_cases hT : s2 = 47 ∧ ¬title = [] ∧ ∀ b ∈ title, isAlnum b = true
  · by_cases hE : b1 = 101 ∧ b2 = 100 ∧ b3 = 105 ∧ b4 = 116
    · simp [hE, hT]
    · by_cases hS : b1 = 115 ∧ b2 = 97 ∧ b3 = 118 ∧ b4 = 101
      · simp [hS, hT]
      · by_cases hV : b1 = 118 ∧ b2 = 105 ∧ b3 = 101 ∧ b4 = 119
        · simp [hV, hT]
        · simp [hE, hS, hV]
  · have hT2 : ¬ ((b1 = 101 ∧ b2 = 100 ∧ b3 = 105 ∧ b4 = 116 ∨
        b1 = 115 ∧ b2 = 97 ∧ b3 = 118 ∧ b4 = 101 ∨ b1 = 118 ∧ b2 = 105 ∧ b3 = 101 ∧ b4 = 119) ∧
        s2 = 47 ∧ ¬title = [] ∧ ∀ b ∈ title, isAlnum b = true) := fun h => hT h.2
    have hT3 : ¬ (s2 = 47 ∧ title ≠ [] ∧ ∀ b ∈ title, isAlnum b = true) := hT
    rw [if_neg hT2, if_neg hT3]
    simp

theorem decode_width_pos (b : UInt8) (tl : GoString) :
    0 < (utf8.DecodeRuneInString (b :: tl)).2 := by
  unfold utf8.DecodeRuneInString
  simp only [utf8.RuneError, utf8.inRange]
  repeat' split
  all_goals simp at *

theorem step_width_pos (s : GoString) (r w : Nat) (h : step s = some (r, w)) : 0 < w := by
  cases s with
  | nil => simp [step] at h
  | cons b tl =>
    by_cases hb : b.toNat < 0x80
    · have hs : step (b :: tl) = some (b.toNat, 1) := by simp [step, hb]
      rw [hs] at h
      cases h
      exact Nat.one_pos
    · have hs : step (b :: tl) = some (utf8.DecodeRuneInString (b :: tl)) := by simp [step, hb]
      have hd := decode_width_pos b tl
      rw [hs] at h
      rw [Option.some.inj h] at hd
      exact hd

theorem searchFrom_later : ∀ (fuel pos : Nat) (rest : GoString), 0 < pos →
    searchFrom validPath fuel pos rest = none := by
  intro fuel
  induction fuel with
  | zero => intro pos rest _; rfl
  | succ f ih =>
    intro pos rest hpos
    have hrun : run validPath ⟨pos, rest, fun _ => none⟩ some = none := by
      rw [validPath_eq, run_concat, run_beginText]
      simp only [if_neg (Nat.pos_iff_ne_zero.mp hpos)]
    rw [searchFrom, hrun]
    simp only []
    cases hstep : step rest with
    | none => rfl
    | some rw =>
      obtain ⟨r, w⟩ := rw
      simp only []
      exact ih (pos + w) _ (by omega)

theorem searchFrom_zero (fuel : Nat) (path : GoString) :
    searchFrom validPath (fuel + 1) 0 path =
      (run validPath ⟨0, path, fun _ => none⟩ some).map
        (fun t => ⟨t.pos, t.rest, fun j => if j = 0 then some (0, t.pos) else t.caps j⟩) := by
  rw [searchFrom]
  cases hrun : run validPath ⟨0, path, fun _ => none⟩ some with
  | some t => rfl
  | none =>
    simp only [Option.map_none']
    cases hstep : step path with
    | none => rfl
    | some rw =>
      obtain ⟨r, w⟩ := rw
      simp only []
      exact searchFrom_later _ _ _ (by have := step_width_pos _ _ _ hstep; omega)

theorem str_slash : str "/" = [47] := by decide

theorem find_validPath (path : GoString) :
    FindStringSubmatch validPath path =
      match path with
      | s :: b1 :: b2 :: b3 :: b4 :: s2 :: title =>
        if s = 47 ∧ [b1, b2, b3, b4] ∈ operations ∧ s2 = 47 ∧ title ≠ [] ∧
            ∀ b ∈ title, isAlnum b = true then
          some [path, [b1, b2, b3, b4], title]
        else none
      | _ => none := by
  have hn : numSubexp validPath = 2 := by decide
  have hr : List.range (2 + 1) = [0, 1, 2] := by decide
  rw [FindStringSubmatch, searchFrom_zero, run_validPath, hn, hr]
  rcases path with _ | ⟨s, _ | ⟨b1, _ | ⟨b2, _ | ⟨b3, _ | ⟨b4, _ | ⟨s2, title⟩⟩⟩⟩⟩⟩
  all_goals try rfl
  simp only []
  split_ifs with h
  · simp [submatch]
    omega
  · rfl

theorem find_iff (path : GoString) (m : List GoString) :
    FindStringSubmatch validPath path = some m ↔
      ∃ op title, op ∈ operations ∧ alphanumeric title ∧
        path = str "/" ++ op ++ str "/" ++ title ∧ m = [path, op, title] := by
  rw [find_validPath]
  constructor
  · intro h
    rcases path with _ | ⟨s, _ | ⟨b1, _ | ⟨b2, _ | ⟨b3, _ | ⟨b4, _ | ⟨s2, title⟩⟩⟩⟩⟩⟩
    all_goals try (simp at h; done)
    simp only [] at h
    split_ifs at h with hc
    obtain ⟨rfl, hop, rfl, hne, hal⟩ := hc
    refine ⟨[b1, b2, b3, b4], title, hop, ⟨hne, hal⟩, by simp [str_slash], ?_⟩
    simpa using h.symm
  · rintro ⟨op, title, hop, ⟨hne, hal⟩, rfl, rfl⟩
    rw [operations_eq] at hop
    simp only [List.mem_cons, List.mem_singleton, List.not_mem_nil, or_false] at hop
    rcases hop with rfl | rfl | rfl <;>
      (simp [str_slash, operations_eq, hne]; exact hal)

end MatchingLemmas

/-! ## Lemmas: the path validator and the page store -/

theorem pathForm_iff (p : GoString) :
    PathForm p ↔ (regexp.FindStringSubmatch validPath p).isSome = true := by
  constructor
  · rintro ⟨op, title, hop, ht, hp⟩
    have h := (find_iff p [p, op, title]).mpr ⟨op, title, hop, ht, hp, rfl⟩
    rw [h]
    rfl
  · intro h
    obtain ⟨m, hm⟩ := Option.isSome_iff_exists.mp h
    obtain ⟨op, title, hop, ht, hp, _⟩ := (find_iff p m).mp hm
    exact ⟨op, title, hop, ht, hp⟩

theorem find_none (p : GoString) (h : ¬ PathForm p) :
    regexp.FindStringSubmatch validPath p = none := by
  cases hf : regexp.FindStringSubmatch validPath p with
  | none => rfl
  | some m =>
    exfalso
    apply h
    rw [pathForm_iff, hf]
    rfl

theorem find_form (op title : GoString) (hop : op ∈ operations) (ht : alphanumeric title) :
    regexp.FindStringSubmatch validPath (str "/" ++ op ++ str "/" ++ title) =
      some [str "/" ++ op ++ str "/" ++ title, op, title] :=
  (find_iff _ _).mpr ⟨op, title, hop, ht, rfl, rfl⟩

theorem save_result (p : Page) (world : World) :
    p.save world = ioutil.WriteFile world (fileOf p.Title) p.Body 0o600 := rfl

theorem loadPage_result (world : World) (title : GoString) :
    loadPage world title =
      (⟨world.fs, world.trace ++ [FileOp.read (fileOf title)]⟩,
        match world.fs.files (world.fs.resolve (fileOf title)) with
        | .absent =>
          .error (str "open " ++ fileOf title ++ str ": no such file or directory")
        | .regular data mayRead _ =>
          if mayRead then .ok ⟨title, data⟩
          else .error (str "open " ++ fileOf title ++ str ": permission denied")
        | .null => .ok ⟨title, []⟩
        | .blocked e => .error e) := by
  have hf : str "data/" ++ title ++ str ".txt" = fileOf title := rfl
  unfold loadPage ioutil.ReadFile
  simp only [hf]
  cases world.fs.files (world.fs.resolve (fileOf title)) with
  | absent => rfl
  | regular data mayRead mayWrite => cases mayRead <;> rfl
  | null => rfl
  | blocked e => rfl

/-- The four cases of `ioutil.WriteFile`, by what the name denotes. -/
theorem WriteFile_cases (world : World) (name : GoString) (data : Bytes) (perm : Nat) :
    ioutil.WriteFile world name data perm =
      match world.fs.files (world.fs.resolve name) with
      | .absent =>
        (⟨⟨world.fs.resolve,
            fun k => if k = world.fs.resolve name then
                .regular data (perm.testBit 8 && !world.fs.umask.testBit 8)
                  (perm.testBit 7 && !world.fs.umask.testBit 7)
              else world.fs.files k,
            world.fs.umask⟩, world.trace ++ [FileOp.write name]⟩, none)
      | .regular _ mayRead mayWrite =>
        if mayWrite then
          (⟨⟨world.fs.resolve,
              fun k => if k = world.fs.resolve name then .regular data mayRead mayWrite
                else world.fs.files k,
              world.fs.umask⟩, world.trace ++ [FileOp.write name]⟩, none)
        else (⟨world.fs, world.trace ++ [FileOp.write name]⟩,
          some (str "open " ++ name ++ str ": permission denied"))
      | .null => (⟨world.fs, world.trace ++ [FileOp.write name]⟩, none)
      | .blocked e => (⟨world.fs, world.trace ++ [FileOp.write name]⟩, some e) := rfl

theorem save_trace (p : Page) (world : World) :
    (p.save world).1.trace = world.trace ++ [FileOp.write (fileOf p.Title)] := by
  rw [save_result, WriteFile_cases]
  cases world.fs.files (world.fs.resolve (fileOf p.Title)) with
  | absent => rfl
  | regular data mayRead mayWrite => cases mayWrite <;> rfl
  | null => rfl
  | blocked e => rfl

/-- A save leaves the resolution of names and the umask alone, and changes at most
what lies at the file its own name denotes. -/
theorem store_after_save (p : Page) (world : World) :
    (p.save world).1.fs.resolve = world.fs.resolve ∧
    (p.save world).1.fs.umask = world.fs.umask ∧
    ∀ k, k ≠ world.fs.resolve (fileOf p.Title) →
      (p.save world).1.fs.files k = world.fs.files k := by
  rw [save_result, WriteFile_cases]
  cases world.fs.files (world.fs.resolve (fileOf p.Title)) with
  | absent => exact ⟨rfl, rfl, fun k hk => by simp [hk]⟩
  | regular data mayRead mayWrite =>
    cases mayWrite
    · exact ⟨rfl, rfl, fun k _ => rfl⟩
    · exact ⟨rfl, rfl, fun k hk => by simp [hk]⟩
  | null => exact ⟨rfl, rfl, fun k _ => rfl⟩
  | blocked e => exact ⟨rfl, rfl, fun k _ => rfl⟩

/-- After a successful save into a file that gives back what is written, the file
is a regular readable file holding the body. -/
theorem save_ok (p : Page) (world : World)
    (hk : readBack world.fs (fileOf p.Title) = true) (h : (p.save world).2 = none) :
    ∃ mayWrite, (p.save world).1.fs.files (world.fs.resolve (fileOf p.Title)) =
      .regular p.Body true mayWrite := by
  rw [save_result, WriteFile_cases] at h ⊢
  unfold readBack at hk
  cases he : world.fs.files (world.fs.resolve (fileOf p.Title)) with
  | absent =>
    rw [he] at hk
    have h8 : Nat.testBit 0o600 8 = true := by decide
    simp only [Bool.not_eq_true'] at hk
    exact ⟨Nat.testBit 0o600 7 && !world.fs.umask.testBit 7, by simp [h8, hk]⟩
  | regular data mayRead mayWrite =>
    rw [he] at hk h
    simp only [] at hk
    subst hk
    cases mayWrite
    · simp at h
    · exact ⟨true, by simp⟩
  | null =>
    rw [he] at hk
    simp at hk
  | blocked e =>
    rw [he] at hk
    simp at hk

theorem loadPage_of_regular (world : World) (title : GoString) (body : Bytes) (mayWrite : Bool)
    (hc : world.fs.files (world.fs.resolve (fileOf title)) = .regular body true mayWrite) :
    (loadPage world title).2 = .ok ⟨title, body⟩ := by
  rw [loadPage_result]
  simp [hc]

/-- A successful save into a file that gives back what is written is followed by a
load of the page saved; the file keeps giving back what is written. -/
theorem load_after_save (p : Page) (world : World)
    (hk : readBack world.fs (fileOf p.Title) = true) (h : (p.save world).2 = none) :
    (loadPage (p.save world).1 p.Title).2 = .ok ⟨p.Title, p.Body⟩ ∧
    readBack (p.save world).1.fs (fileOf p.Title) = true := by
  obtain ⟨mw, hf⟩ := save_ok p world hk h
  obtain ⟨hr, _, _⟩ := store_after_save p world
  constructor
  · exact loadPage_of_regular _ _ _ mw (by rw [hr]; exact hf)
  · unfold readBack
    rw [hr, hf]

theorem alphanumeric_Test : alphanumeric (str "Test") :=
  ⟨by decide, by decide⟩
theorem makeHandler_notFound
    (fn : World → http.ResponseWriter → Request → GoString → World × http.ResponseWriter)
    (world : World) (w : http.ResponseWriter) (r : Request) (h : ¬ PathForm r.Path) :
    makeHandler fn world w r =
      (world, w ++ [http.Effect.error (str "404 page not found") http.StatusNotFound]) := by
  unfold makeHandler
  rw [find_none r.Path h]
  rfl

theorem isAlnum_ne (b : UInt8) (h : isAlnum b = true) : b ≠ 0x2F ∧ b ≠ 0x2E := by
  constructor <;>
  · rintro rfl
    revert h
    decide

theorem fileOf_counts (t : GoString) (ht : alphanumeric t) :
    (fileOf t).count 0x2F = 1 ∧ (fileOf t).count 0x2E = 1 := by
  have h1 : t.count 0x2F = 0 :=
    List.count_eq_zero.mpr (fun hm => (isAlnum_ne _ (ht.2 _ hm)).1 rfl)
  have h2 : t.count 0x2E = 0 :=
    List.count_eq_zero.mpr (fun hm => (isAlnum_ne _ (ht.2 _ hm)).2 rfl)
  have a1 : (str "data/").count 0x2F = 1 := by decide
  have a2 : (str ".txt").count 0x2F = 0 := by decide
  have a3 : (str "data/").count 0x2E = 0 := by decide
  have a4 : (str ".txt").count 0x2E = 1 := by decide
  unfold fileOf
  constructor
  · rw [List.count_append, List.count_append, h1, a1, a2]
  · rw [List.count_append, List.count_append, h2, a3, a4]

theorem fileOf_no_dotdot (t : GoString) (ht : alphanumeric t) :
    ¬ (str ".." <:+: fileOf t) := by
  intro h
  have hc := h.sublist.count_le (0x2E : UInt8)
  have h2 : (str "..").count 0x2E = 2 := by decide
  rw [h2, (fileOf_counts t ht).2] at hc
  omega

theorem fileOf_safe (o t : GoString) (ho : o ∈ operations) (ht : alphanumeric t)
    (op : FileOp) (hop : op.name = fileOf t) :
    safeAccess (str "/" ++ o ++ str "/" ++ t) op := by
  refine ⟨t, hop, ht, ⟨o, ho, rfl⟩, ?_, ?_⟩
  · rw [hop]
    exact fileOf_no_dotdot t ht
  · rw [hop]
    exact (fileOf_counts t ht).1

theorem makeHandler_accepts
    (fn : World → http.ResponseWriter → Request → GoString → World × http.ResponseWriter)
    (world : World) (w : http.ResponseWriter) (r : Request) (op title : GoString)
    (hop : op ∈ operations) (ht : alphanumeric title)
    (hp : r.Path = str "/" ++ op ++ str "/" ++ title) :
    makeHandler fn world w r = fn world w r title := by
  unfold makeHandler
  rw [hp, find_form op title hop ht]
  rfl

theorem viewHandler_world (templates : Templates) (world : World) (w : http.ResponseWriter)
    (r : Request) (title : GoString) :
    (viewHandler templates world w r title).1 =
      ⟨world.fs, world.trace ++ [FileOp.read (fileOf title)]⟩ := by
  unfold viewHandler
  rw [loadPage_result]
  split <;> simp_all

theorem editHandler_world (templates : Templates) (world : World) (w : http.ResponseWriter)
    (r : Request) (title : GoString) :
    (editHandler templates world w r title).1 =
      ⟨world.fs, world.trace ++ [FileOp.read (fileOf title)]⟩ := by
  unfold editHandler
  rw [loadPage_result]
  split <;> simp_all

theorem saveHandler_world (world : World) (w : http.ResponseWriter) (r : Request)
    (title : GoString) :
    (saveHandler world w r title).1 = (Page.save ⟨title, r.FormValue (str "body")⟩ world).1 := by
  unfold saveHandler
  simp only []
  split <;> simp_all

theorem viewHandler_result (templates : Templates) (world : World) (w : http.ResponseWriter)
    (r : Request) (title : GoString) :
    (viewHandler templates world w r title).2 =
      match (loadPage world title).2 with
      | .error _ => http.Redirect w r (str "/edit/" ++ title) http.StatusFound
      | .ok p => renderTemplate templates w (str "view") p := by
  unfold viewHandler
  cases hl : loadPage world title with
  | mk world1 res => cases res <;> rfl

theorem editHandler_result (templates : Templates) (world : World) (w : http.ResponseWriter)
    (r : Request) (title : GoString) :
    (editHandler templates world w r title).2 =
      match (loadPage world title).2 with
      | .error _ => renderTemplate templates w (str "edit") ⟨title, []⟩
      | .ok p => renderTemplate templates w (str "edit") p := by
  unfold editHandler
  cases hl : loadPage world title with
  | mk world1 res => cases res <;> rfl

theorem saveHandler_result (world : World) (w : http.ResponseWriter) (r : Request)
    (title : GoString) :
    (saveHandler world w r title).2 =
      match (Page.save ⟨title, r.FormValue (str "body")⟩ world).2 with
      | some err => w ++ [http.Effect.error err http.StatusInternalServerError]
      | none => http.Redirect w r (str "/view/" ++ title) http.StatusFound := by
  unfold saveHandler
  simp only []
  cases hl : Page.save ⟨title, r.FormValue (str "body")⟩ world with
  | mk world1 res => cases res <;> rfl

theorem renderTemplate_result (templates : Templates) (w : http.ResponseWriter)
    (tmpl : GoString) (p : Page) :
    renderTemplate templates w tmpl p =
      match (templates (tmpl ++ str ".html") p).2 with
      | some err =>
        w ++ [http.Effect.execute (tmpl ++ str ".html") p (templates (tmpl ++ str ".html") p).1]
          ++ [http.Effect.error err http.StatusInternalServerError]
      | none =>
        w ++ [http.Effect.execute (tmpl ++ str ".html") p
          (templates (tmpl ++ str ".html") p).1] := by
  unfold renderTemplate ExecuteTemplate
  cases hl : (templates (tmpl ++ str ".html") p).2 <;> rfl

theorem renderTemplate_facts (templates : Templates) (tmpl : GoString) (p : Page) :
    (renderTemplate templates [] tmpl p).head? =
      some (http.Effect.execute (tmpl ++ str ".html") p (templates (tmpl ++ str ".html") p).1) ∧
    (∀ url code, http.Effect.redirect url code ∉ renderTemplate templates [] tmpl p) ∧
    http.location (renderTemplate templates [] tmpl p) = none ∧
    ((templates (tmpl ++ str ".html") p).2 = none →
      http.status (renderTemplate templates [] tmpl p) = http.StatusOK) := by
  rw [renderTemplate_result]
  cases he : (templates (tmpl ++ str ".html") p).2 with
  | none =>
    refine ⟨rfl, by simp, ?_, fun _ => ?_⟩
    · simp only [List.nil_append, http.location]
      split <;> rfl
    · simp only [List.nil_append, http.status]
      split <;> rfl
  | some err =>
    refine ⟨rfl, by simp, ?_, fun h => by simp at h⟩
    simp only [List.nil_append, List.cons_append, http.location]
    split <;> rfl

theorem path_save (title : GoString) :
    str "/save/" ++ title = str "/" ++ str "save" ++ str "/" ++ title := by
  have h : str "/save/" = str "/" ++ str "save" ++ str "/" := by decide
  rw [h]

theorem path_view (title : GoString) :
    str "/view/" ++ title = str "/" ++ str "view" ++ str "/" ++ title := by
  have h : str "/view/" = str "/" ++ str "view" ++ str "/" := by decide
  rw [h]

theorem path_edit (title : GoString) :
    str "/edit/" ++ title = str "/" ++ str "edit" ++ str "/" ++ title := by
  have h : str "/edit/" = str "/" ++ str "edit" ++ str "/" := by decide
  rw [h]

theorem saveHandler_status (world : World) (r : Request) (title : GoString) :
    (http.status (saveHandler world [] r title).2 = http.StatusFound ↔
      (Page.save ⟨title, r.FormValue (str "body")⟩ world).2 = none) ∧
    (http.status (saveHandler world [] r title).2 = http.StatusInternalServerError ↔
      (Page.save ⟨title, r.FormValue (str "body")⟩ world).2 ≠ none) := by
  rw [saveHandler_result]
  cases hs : (Page.save ⟨title, r.FormValue (str "body")⟩ world).2 with
  | none =>
    simp [http.Redirect, http.status, http.StatusFound, http.StatusInternalServerError]
  | some err => simp [http.status, http.StatusFound, http.StatusInternalServerError]

theorem renders_renderTemplate (templates : Templates) (name : GoString) (p : Page) :
    Renders templates name p (renderTemplate templates [] name p) :=
  ⟨rfl, (renderTemplate_facts templates name p).1, (renderTemplate_facts templates name p).2.1,
    (renderTemplate_facts templates name p).2.2.1⟩

theorem longestMatch_mem (path : GoString) : ∀ (mux : http.ServeMux)
    (best : Option (GoString × http.HandlerFunc)) (e : GoString × http.HandlerFunc),
    http.longestMatch path mux best = some e → e ∈ mux ∨ best = some e := by
  intro mux
  induction mux with
  | nil =>
    intro best e h
    exact Or.inr h
  | cons x xs ih =>
    intro best e h
    rw [http.longestMatch.eq_def] at h
    simp only [] at h
    split at h
    · rcases ih _ _ h with hm | hb
      · exact Or.inl (List.mem_cons_of_mem _ hm)
      · exact Or.inl (by rw [Option.some.inj hb]; exact List.mem_cons_self _ _)
    · rcases ih _ _ h with hm | hb
      · exact Or.inl (List.mem_cons_of_mem _ hm)
      · exact Or.inr hb

theorem find_mem (mux : http.ServeMux) (path : GoString) (e : GoString × http.HandlerFunc)
    (h : mux.find path = some e) : e ∈ mux := by
  unfold http.ServeMux.find at h
  split at h
  · rename_i e2 hf
    rw [← Option.some.inj h]
    exact List.mem_of_find?_eq_some hf
  · rcases longestMatch_mem path mux none e h with hm | hb
    · exact hm
    · simp at hb

theorem main_handlers (templates : Templates) (e : GoString × http.HandlerFunc)
    (h : e ∈ main templates) : ∃ fn, e.2 = makeHandler fn := by
  simp only [main, List.mem_cons, List.mem_singleton, List.not_mem_nil, or_false] at h
  rcases h with rfl | rfl | rfl
  · exact ⟨_, rfl⟩
  · exact ⟨_, rfl⟩
  · exact ⟨_, rfl⟩

theorem handler_rejects (templates : Templates) (p : GoString) (world : World) (r : Request)
    (h : ¬ PathForm r.Path) :
    http.ServeMux.handler (main templates) p world [] r =
      (world, [http.Effect.error (str "404 page not found") http.StatusNotFound]) := by
  unfold http.ServeMux.handler
  cases hf : http.ServeMux.find (main templates) p with
  | none => rfl
  | some e =>
    obtain ⟨fn, hfn⟩ := main_handlers templates e (find_mem _ _ _ hf)
    simp only [hfn]
    rw [makeHandler_notFound fn world [] r h]
    rfl

theorem splitOn_no_sep (sep : UInt8) : ∀ t : GoString, (∀ b ∈ t, b ≠ sep) →
    splitOn sep t = [t] := by
  intro t
  induction t with
  | nil => intro _; rfl
  | cons c cs ih =>
    intro h
    have hc : c ≠ sep := h c (List.mem_cons_self _ _)
    rw [splitOn, if_neg hc, ih (fun b hb => h b (List.mem_cons_of_mem _ hb))]

theorem splitOn_append (sep : UInt8) (rest : GoString) : ∀ a : GoString, (∀ b ∈ a, b ≠ sep) →
    splitOn sep (a ++ sep :: rest) = a :: splitOn sep rest := by
  intro a
  induction a with
  | nil =>
    intro _
    rw [List.nil_append, splitOn, if_pos rfl]
  | cons c cs ih =>
    intro h
    have hc : c ≠ sep := h c (List.mem_cons_self _ _)
    rw [List.cons_append, splitOn, if_neg hc, ih (fun b hb => h b (List.mem_cons_of_mem _ hb))]

theorem alphanumeric_facts (title : GoString) (ht : alphanumeric title) :
    (∀ b ∈ title, b ≠ 0x2F) ∧ title ≠ [] ∧ title ≠ str "." ∧ title ≠ str ".." ∧
    title.getLast? ≠ some 0x2F := by
  refine ⟨fun b hb => (isAlnum_ne b (ht.2 b hb)).1, ht.1, ?_, ?_, ?_⟩
  · intro h
    have := ht.2 0x2E (by rw [h]; decide)
    revert this
    decide
  · intro h
    have := ht.2 0x2E (by rw [h]; decide)
    revert this
    decide
  · intro h
    have hm := List.mem_of_getLast?_eq_some h
    exact (isAlnum_ne _ (ht.2 _ hm)).1 rfl

theorem operations_facts (op : GoString) (hop : op ∈ operations) :
    (∀ b ∈ op, b ≠ 0x2F) ∧ op ≠ [] ∧ op ≠ str "." ∧ op ≠ str ".." := by
  rw [operations_eq] at hop
  simp only [List.mem_cons, List.mem_singleton, List.not_mem_nil, or_false] at hop
  rcases hop with rfl | rfl | rfl <;> decide

theorem str_view : str "/view/" = [47, 118, 105, 101, 119, 47] := by decide

theorem str_edit : str "/edit/" = [47, 101, 100, 105, 116, 47] := by decide

theorem str_save : str "/save/" = [47, 115, 97, 118, 101, 47] := by decide

theorem handler_view (templates : Templates) (title : GoString) (ht : title ≠ []) :
    http.ServeMux.handler (main templates) (str "/view/" ++ title) =
      makeHandler (viewHandler templates) ∧
    http.ServeMux.shouldRedirect (main templates) (str "/view/" ++ title) = false := by
  have ht2 : ¬ [] = title := fun h => ht h.symm
  constructor
  · unfold http.ServeMux.handler http.ServeMux.find main
    simp [str_view, str_edit, str_save, http.longestMatch, http.startsWith, ht2]
  · unfold http.ServeMux.shouldRedirect main
    simp [str_view, str_edit, str_save, str_slash, ht2]

theorem handler_edit (templates : Templates) (title : GoString) (ht : title ≠ []) :
    http.ServeMux.handler (main templates) (str "/edit/" ++ title) =
      makeHandler (editHandler templates) ∧
    http.ServeMux.shouldRedirect (main templates) (str "/edit/" ++ title) = false := by
  have ht2 : ¬ [] = title := fun h => ht h.symm
  constructor
  · unfold http.ServeMux.handler http.ServeMux.find main
    simp [str_view, str_edit, str_save, http.longestMatch, http.startsWith, ht2]
  · unfold http.ServeMux.shouldRedirect main
    simp [str_view, str_edit, str_save, str_slash, ht2]

theorem handler_save (templates : Templates) (title : GoString) (ht : title ≠ []) :
    http.ServeMux.handler (main templates) (str "/save/" ++ title) =
      makeHandler saveHandler ∧
    http.ServeMux.shouldRedirect (main templates) (str "/save/" ++ title) = false := by
  have ht2 : ¬ [] = title := fun h => ht h.symm
  constructor
  · unfold http.ServeMux.handler http.ServeMux.find main
    simp [str_view, str_edit, str_save, http.longestMatch, http.startsWith, ht2]
  · unfold http.ServeMux.shouldRedirect main
    simp [str_view, str_edit, str_save, str_slash, ht2]

theorem fileOf_injective (a b : GoString) (h : fileOf a = fileOf b) : a = b := by
  unfold fileOf at h
  exact List.append_cancel_left (List.append_cancel_right h)

/-! ## Lemmas: clean paths and redirects -/

/-- A rooted path of two plain elements is clean. -/
theorem Clean_rooted_two (o t : GoString) (ho : ∀ b ∈ o, b ≠ 0x2F) (ho1 : o ≠ [])
    (ho2 : o ≠ str ".") (ho3 : o ≠ str "..") (ht : ∀ b ∈ t, b ≠ 0x2F) (ht1 : t ≠ [])
    (ht2 : t ≠ str ".") (ht3 : t ≠ str "..") :
    path.Clean (str "/" ++ o ++ str "/" ++ t) = str "/" ++ o ++ str "/" ++ t := by
  have hp : str "/" ++ o ++ str "/" ++ t = 0x2F :: (o ++ 0x2F :: t) := by
    rw [str_slash]
    simp
  have hsplit : splitOn 0x2F (0x2F :: (o ++ 0x2F :: t)) = [[], o, t] := by
    rw [splitOn, if_pos rfl, splitOn_append _ _ _ ho, splitOn_no_sep _ _ ht]
  have hclean : cleanElements true [[], o, t] [] = [t, o] := by
    simp [cleanElements, ho1, ho2, ho3, ht1, ht2, ht3]
  have hjoin : joinSlash [o, t] = o ++ str "/" ++ t := rfl
  rw [hp]
  unfold path.Clean
  simp only [decide_True, if_true, hsplit, hclean, List.reverse_cons, List.reverse_nil,
    List.nil_append, List.singleton_append, hjoin]
  rw [str_slash]
  simp

/-- A path of two plain elements that does not begin with a slash is clean. -/
theorem Clean_relative_two (o t : GoString) (ho : ∀ b ∈ o, b ≠ 0x2F) (ho1 : o ≠ [])
    (ho2 : o ≠ str ".") (ho3 : o ≠ str "..") (ht : ∀ b ∈ t, b ≠ 0x2F) (ht1 : t ≠ [])
    (ht2 : t ≠ str ".") (ht3 : t ≠ str "..") :
    path.Clean (o ++ str "/" ++ t) = o ++ str "/" ++ t := by
  have hp : o ++ str "/" ++ t = o ++ 0x2F :: t := by
    rw [str_slash]
    simp
  have hsplit : splitOn 0x2F (o ++ 0x2F :: t) = [o, t] := by
    rw [splitOn_append _ _ _ ho, splitOn_no_sep _ _ ht]
  have hclean : cleanElements false [o, t] [] = [t, o] := by
    simp [cleanElements, ho1, ho2, ho3, ht1, ht2, ht3]
  have hjoin : joinSlash [o, t] = o ++ str "/" ++ t := rfl
  rw [hp]
  obtain ⟨c, cs, rfl⟩ := List.exists_cons_of_ne_nil ho1
  have hc : c ≠ 0x2F := ho c (List.mem_cons_self _ _)
  have hne : ¬ ((c :: cs) ++ str "/" ++ t = []) := by simp
  unfold path.Clean
  simp only [List.cons_append, hc, decide_False, Bool.false_eq_true, if_false]
  rw [← List.cons_append, hsplit, hclean]
  simp only [List.reverse_cons, List.reverse_nil, List.nil_append, List.singleton_append, hjoin,
    hne, if_false]
  rw [str_slash]
  simp

theorem cleanPath_two (o t : GoString) (ho : ∀ b ∈ o, b ≠ 0x2F) (ho1 : o ≠ [])
    (ho2 : o ≠ str ".") (ho3 : o ≠ str "..") (ht : ∀ b ∈ t, b ≠ 0x2F) (ht1 : t ≠ [])
    (ht2 : t ≠ str ".") (ht3 : t ≠ str "..") (hlast : t.getLast? ≠ some 0x2F) :
    http.cleanPath (str "/" ++ o ++ str "/" ++ t) = str "/" ++ o ++ str "/" ++ t := by
  have hC := Clean_rooted_two o t ho ho1 ho2 ho3 ht ht1 ht2 ht3
  have hp : str "/" ++ o ++ str "/" ++ t = 0x2F :: (o ++ 0x2F :: t) := by
    rw [str_slash]
    simp
  have hl : (0x2F :: (o ++ 0x2F :: t)).getLast? = t.getLast? := by
    have e : (0x2F : UInt8) :: (o ++ 0x2F :: t) = ([0x2F] ++ o ++ [0x2F]) ++ t := by simp
    rw [e, List.getLast?_append_of_ne_nil _ ht1]
  rw [hp] at hC ⊢
  unfold http.cleanPath
  simp only [List.cons_ne_nil, if_false, List.head?_cons, ne_eq, not_true_eq_false, hC, hl,
    hlast, false_and]

theorem cleanPath_form (op title : GoString) (hop : op ∈ operations) (ht : alphanumeric title) :
    http.cleanPath (str "/" ++ op ++ str "/" ++ title) = str "/" ++ op ++ str "/" ++ title := by
  obtain ⟨hsl, hne, hd1, hd2, hlast⟩ := alphanumeric_facts title ht
  obtain ⟨h1, h2, h3, h4⟩ := operations_facts op hop
  exact cleanPath_two op title h1 h2 h3 h4 hsl hne hd1 hd2 hlast

theorem hexEscape_ascii : ∀ s : GoString, (∀ b ∈ s, b.toNat < 0x80) →
    http.hexEscapeNonASCII s = s := by
  intro s
  induction s with
  | nil => intro _; rfl
  | cons c cs ih =>
    intro h
    rw [http.hexEscapeNonASCII, if_pos (h c (List.mem_cons_self _ _)),
      ih (fun b hb => h b (List.mem_cons_of_mem _ hb))]

theorem isAlnum_plain (b : UInt8) (h : isAlnum b = true) : b.toNat < 0x80 ∧ b ≠ 0x3F := by
  constructor
  · simp [isAlnum] at h
    omega
  · rintro rfl
    revert h
    decide

/-- The bytes of a path `/op/title` are ASCII and none is a question mark. -/
theorem form_bytes (op title : GoString) (hop : op ∈ operations) (ht : alphanumeric title) :
    ∀ b ∈ str "/" ++ op ++ str "/" ++ title, b.toNat < 0x80 ∧ b ≠ 0x3F := by
  have hops : ∀ b ∈ op, b.toNat < 0x80 ∧ b ≠ 0x3F := by
    rw [operations_eq] at hop
    simp only [List.mem_cons, List.mem_singleton, List.not_mem_nil, or_false] at hop
    rcases hop with rfl | rfl | rfl <;> decide
  intro b hb
  rw [str_slash] at hb
  simp only [List.mem_append, List.mem_singleton] at hb
  rcases hb with ((rfl | hb) | rfl) | hb
  · decide
  · exact hops b hb
  · decide
  · exact isAlnum_plain b (ht.2 b hb)

/-- What `http.Redirect` sends for a path `/op/title` of the program is the path
itself. -/
theorem redirectLocation_form (r : Request) (op title : GoString) (hop : op ∈ operations)
    (ht : alphanumeric title) :
    http.redirectLocation r (str "/" ++ op ++ str "/" ++ title) =
      str "/" ++ op ++ str "/" ++ title := by
  obtain ⟨hsl, hne, hd1, hd2, hlast⟩ := alphanumeric_facts title ht
  obtain ⟨h1, h2, h3, h4⟩ := operations_facts op hop
  have hb := form_bytes op title hop ht
  have hC := Clean_rooted_two op title h1 h2 h3 h4 hsl hne hd1 hd2
  have hesc := hexEscape_ascii _ (fun b hm => (hb b hm).1)
  have htake : (str "/" ++ op ++ str "/" ++ title).takeWhile (fun b => decide (b ≠ 0x3F)) =
      str "/" ++ op ++ str "/" ++ title :=
    List.takeWhile_eq_self_iff.mpr (fun b hm => by simpa using (hb b hm).2)
  have hdrop : (str "/" ++ op ++ str "/" ++ title).dropWhile (fun b => decide (b ≠ 0x3F)) = [] :=
    List.dropWhile_eq_nil_iff.mpr (fun b hm => by simpa using (hb b hm).2)
  have hhead : (str "/" ++ op ++ str "/" ++ title).head? = some 0x2F := by
    rw [str_slash]
    rfl
  have hl : (str "/" ++ op ++ str "/" ++ title).getLast? = title.getLast? :=
    List.getLast?_append_of_ne_nil _ hne
  unfold http.redirectLocation
  split
  · simp only [hhead, ne_eq, not_true_eq_false, if_false, htake, hdrop, hC, hl, hlast,
      false_and, List.append_nil]
    exact hesc
  · exact hesc
/-- The file name of an alphanumeric title is a clean path: resolved by its
spelling it denotes itself. -/
theorem Clean_fileOf (t : GoString) (ht : alphanumeric t) :
    path.Clean (fileOf t) = fileOf t := by
  have hname : fileOf t = str "data" ++ str "/" ++ (t ++ str ".txt") := by
    have h : str "data/" = str "data" ++ str "/" := by decide
    unfold fileOf
    rw [h]
    simp
  have hsl : ∀ b ∈ t ++ str ".txt", b ≠ 0x2F := by
    intro b hb
    rcases List.mem_append.mp hb with hb | hb
    · exact (isAlnum_ne b (ht.2 b hb)).1
    · have hall : ∀ c ∈ str ".txt", c ≠ 0x2F := by decide
      exact hall b hb
  have hlen : 5 ≤ (t ++ str ".txt").length := by
    have h4 : (str ".txt").length = 4 := by decide
    have h1 : 0 < t.length := List.length_pos.mpr ht.1
    rw [List.length_append, h4]
    omega
  have hne : t ++ str ".txt" ≠ [] := by
    intro h
    rw [h] at hlen
    simp at hlen
  have hd1 : t ++ str ".txt" ≠ str "." := by
    intro h
    rw [h] at hlen
    revert hlen
    decide
  have hd2 : t ++ str ".txt" ≠ str ".." := by
    intro h
    rw [h] at hlen
    revert hlen
    decide
  rw [hname]
  exact Clean_relative_two (str "data") (t ++ str ".txt") (by decide) (by decide) (by decide)
    (by decide) hsl hne hd1 hd2

/-- A request whose path is not of the form of a page path is answered without any
handler of the program touching the world: by `http.NotFound`, by a redirect of the
multiplexer, or, for the request target `*`, by the server or the multiplexer. -/
theorem serve_rejects (templates : Templates) (world : World) (r : Request)
    (h : ¬ PathForm r.Path) :
    (serve templates world r).1 = world ∧
    ((serve templates world r).2 =
        [http.Effect.error (str "404 page not found") http.StatusNotFound] ∨
      (∃ url code, (serve templates world r).2 = [http.Effect.redirect url code]) ∨
      (r.RequestURI = str "*" ∧
        ((serve templates world r).2 = [] ∨
          (serve templates world r).2 = [http.Effect.writeHeader http.StatusBadRequest]))) := by
  unfold serve http.serverHandler
  split
  · rename_i hopt
    exact ⟨rfl, Or.inr (Or.inr ⟨hopt.1, Or.inl rfl⟩)⟩
  · unfold http.ServeMux.ServeHTTP
    split
    · rename_i huri
      exact ⟨rfl, Or.inr (Or.inr ⟨huri, Or.inr rfl⟩)⟩
    · unfold http.ServeMux.Handler
      simp only []
      split
      · split
        · exact ⟨rfl, Or.inr (Or.inl ⟨_, _, rfl⟩)⟩
        · rw [handler_rejects templates _ world r h]
          exact ⟨rfl, Or.inl rfl⟩
      · split
        · exact ⟨rfl, Or.inr (Or.inl ⟨_, _, rfl⟩)⟩
        · split
          · exact ⟨rfl, Or.inr (Or.inl ⟨_, _, rfl⟩)⟩
          · rw [handler_rejects templates _ world r h]
            exact ⟨rfl, Or.inl rfl⟩

/-- A request that is not for the target `*` and whose path is canonical and names
no subtree root goes to the handler registered for its path. -/
theorem serve_routes (templates : Templates) (world : World) (r : Request)
    (huri : r.RequestURI ≠ str "*") (hclean : http.cleanPath r.Path = r.Path)
    (hred : http.ServeMux.shouldRedirect (main templates) r.Path = false) :
    serve templates world r = http.ServeMux.handler (main templates) r.Path world [] r := by
  unfold serve http.serverHandler http.ServeMux.ServeHTTP http.ServeMux.Handler
  simp only [huri, false_and, if_false, hclean, hred, ne_eq, not_true_eq_false]
  split <;> simp

theorem serve_accepts (templates : Templates) (world : World) (r : Request)
    (title : GoString) (huri : r.RequestURI ≠ str "*") (ht : alphanumeric title) :
    (r.Path = str "/view/" ++ title →
      serve templates world r = viewHandler templates world [] r title) ∧
    (r.Path = str "/edit/" ++ title →
      serve templates world r = editHandler templates world [] r title) ∧
    (r.Path = str "/save/" ++ title →
      serve templates world r = saveHandler world [] r title) := by
  refine ⟨fun hp => ?_, fun hp => ?_, fun hp => ?_⟩
  · have hc : http.cleanPath r.Path = r.Path := by
      rw [hp, path_view]
      exact cleanPath_form _ _ (by decide) ht
    rw [serve_routes templates world r huri hc (by rw [hp]; exact (handler_view _ _ ht.1).2),
      hp, (handler_view _ _ ht.1).1]
    exact makeHandler_accepts _ world [] r (str "view") title (by decide) ht
      (by rw [hp, path_view])
  · have hc : http.cleanPath r.Path = r.Path := by
      rw [hp, path_edit]
      exact cleanPath_form _ _ (by decide) ht
    rw [serve_routes templates world r huri hc (by rw [hp]; exact (handler_edit _ _ ht.1).2),
      hp, (handler_edit _ _ ht.1).1]
    exact makeHandler_accepts _ world [] r (str "edit") title (by decide) ht
      (by rw [hp, path_edit])
  · have hc : http.cleanPath r.Path = r.Path := by
      rw [hp, path_save]
      exact cleanPath_form _ _ (by decide) ht
    rw [serve_routes templates world r huri hc (by rw [hp]; exact (handler_save _ _ ht.1).2),
      hp, (handler_save _ _ ht.1).1]
    exact makeHandler_accepts _ world [] r (str "save") title (by decide) ht
      (by rw [hp, path_save])

/-- What a view request finds after a successful save request for the same title,
when the file of the page gives back what is written. -/
theorem view_after_save (templates : Templates) (world : World) (title : GoString)
    (rs rv : Request) (ht : alphanumeric title)
    (hk : readBack world.fs (fileOf title) = true)
    (hps : rs.Path = str "/save/" ++ title) (hpv : rv.Path = str "/view/" ++ title)
    (hok : http.status (makeHandler saveHandler world [] rs).2 = http.StatusFound) :
    (makeHandler (viewHandler templates) (makeHandler saveHandler world [] rs).1 [] rv).2 =
      renderTemplate templates [] (str "view") ⟨title, rs.FormValue (str "body")⟩ ∧
    readBack (makeHandler saveHandler world [] rs).1.fs (fileOf title) = true := by
  have hs := makeHandler_accepts saveHandler world [] rs (str "save") title (by decide) ht
    (by rw [hps, path_save])
  rw [hs] at hok ⊢
  have hsave := ((saveHandler_status world rs title).1).mp hok
  obtain ⟨hl, hk2⟩ := load_after_save ⟨title, rs.FormValue (str "body")⟩ world hk hsave
  rw [makeHandler_accepts (viewHandler templates) _ [] rv (str "view") title (by decide) ht
    (by rw [hpv, path_view]), viewHandler_result, saveHandler_world, hl]
  exact ⟨rfl, hk2⟩
theorem save_writeOnly (p : Page) (world : World) (d : Bytes)
    (h : world.fs.files (world.fs.resolve (fileOf p.Title)) = .regular d false true) :
    (p.save world).2 = none ∧
    (p.save world).1.fs.files ((p.save world).1.fs.resolve (fileOf p.Title)) =
      .regular p.Body false true := by
  rw [save_result, WriteFile_cases, h]
  simp

theorem loadPage_unreadable (world : World) (title : GoString) (d : Bytes) (mayWrite : Bool)
    (h : world.fs.files (world.fs.resolve (fileOf title)) = .regular d false mayWrite) :
    (loadPage world title).2 =
      .error (str "open " ++ fileOf title ++ str ": permission denied") := by
  rw [loadPage_result, h]
  rfl

/-- A save request for an alphanumeric title whose page file may be written and
not read succeeds and leaves the file as unreadable as it was. -/
theorem save_request_writeOnly (world : World) (title : GoString) (rs : Request) (d : Bytes)
    (ht : alphanumeric title) (hps : rs.Path = str "/save/" ++ title)
    (h : world.fs.files (world.fs.resolve (fileOf title)) = .regular d false true) :
    http.status (makeHandler saveHandler world [] rs).2 = 302 ∧
    (makeHandler saveHandler world [] rs).1.fs.files
        ((makeHandler saveHandler world [] rs).1.fs.resolve (fileOf title)) =
      .regular (rs.FormValue (str "body")) false true := by
  have hs := makeHandler_accepts saveHandler world [] rs (str "save") title (by decide) ht
    (by rw [hps, path_save])
  obtain ⟨h1, h2⟩ := save_writeOnly ⟨title, rs.FormValue (str "body")⟩ world d h
  rw [hs]
  constructor
  · exact ((saveHandler_status world rs title).1).mpr h1
  · rw [saveHandler_world]
    exact h2

/-- A view request for an alphanumeric title whose page file may not be read is
redirected to the edit path. -/
theorem view_request_unreadable (templates : Templates) (world : World) (title : GoString)
    (rv : Request) (d : Bytes) (mayWrite : Bool) (ht : alphanumeric title)
    (hpv : rv.Path = str "/view/" ++ title)
    (h : world.fs.files (world.fs.resolve (fileOf title)) = .regular d false mayWrite) :
    http.status (makeHandler (viewHandler templates) world [] rv).2 = 302 ∧
    http.location (makeHandler (viewHandler templates) world [] rv).2 =
      some (str "/edit/" ++ title) := by
  have hloc := redirectLocation_form rv (str "edit") title (by decide) ht
  rw [← path_edit] at hloc
  rw [makeHandler_accepts (viewHandler templates) world [] rv (str "view") title (by decide) ht
    (by rw [hpv, path_view]), viewHandler_result, loadPage_unreadable world title d mayWrite h]
  simp only [http.Redirect, hloc]
  exact ⟨rfl, rfl⟩
/-! ## The claims -/

/-- C1, as stated, fails: not every prior state of the file store gives back what
a successful save wrote.  When the file of the page `Test` has mode `0200` the save
succeeds and the load that follows is refused; when `data/Test.txt` is a link to
`/dev/null` the save succeeds and the load returns an empty body. -/
theorem save_succeeds_load_differs :
    alphanumeric (str "Test") ∧
    (Page.save ⟨str "Test", str "hello"⟩ worldWriteOnly).2 = none ∧
    (loadPage (Page.save ⟨str "Test", str "hello"⟩ worldWriteOnly).1 (str "Test")).2 =
      .error (str "open data/Test.txt: permission denied") ∧
    (Page.save ⟨str "Test", str "hello"⟩ worldNullLink).2 = none ∧
    (loadPage (Page.save ⟨str "Test", str "hello"⟩ worldNullLink).1 (str "Test")).2 =
      .ok ⟨str "Test", []⟩ :=
  ⟨alphanumeric_Test, by decide, rfl, by decide, rfl⟩

/-- C1, amended. Round trip of the page store: for every alphanumeric title, every
body and every prior state of the file store in which the file of the page does not
exist (and the umask leaves the owner the right to read what is created with mode
`0600`) or is a regular file that the process may read, if saving
`Page{Title: title, Body: body}` succeeds then `loadPage(title)` run next succeeds
and returns the page with exactly that title and that body, whatever the file held
before. -/
theorem save_loadPage_roundtrip (world : World) (title : GoString) (body : Bytes)
    (_ht : alphanumeric title)
    (hk : readBack world.fs (fileOf title) = true)
    (hs : (Page.save ⟨title, body⟩ world).2 = none) :
    (loadPage (Page.save ⟨title, body⟩ world).1 title).2 = .ok ⟨title, body⟩ :=
  (load_after_save ⟨title, body⟩ world hk hs).1

/-- C1 amended, at a concrete input: title `Test`, body `hello`, over a readable
page file that held `old`. -/
theorem save_loadPage_roundtrip_witness :
    readBack worldWithTest.fs (fileOf (str "Test")) = true ∧
    (Page.save ⟨str "Test", str "hello"⟩ worldWithTest).2 = none ∧
    (loadPage (Page.save ⟨str "Test", str "hello"⟩ worldWithTest).1 (str "Test")).2 =
      .ok ⟨str "Test", str "hello"⟩ :=
  ⟨by decide, by decide, save_loadPage_roundtrip worldWithTest (str "Test") (str "hello")
    alphanumeric_Test (by decide) (by decide)⟩

/-- C2. Characterisation of the path validator: `validPath` matches a path exactly
when the path is `/` ++ op ++ `/` ++ title with op one of `edit`, `save`, `view` and
title a non-empty string of ASCII letters and digits, nothing before or after; the
match then consists of the whole path, the operation and, as second group, exactly
that title, which is what `makeHandler` hands to the wrapped handler.  Paths with an empty title, an extra segment, a trailing slash or
newline, a dot, a slash or a non-ASCII character in the title, or an unknown
operation do not match. -/
theorem validPath_characterisation :
    (∀ path, regexp.FindStringSubmatch validPath path ≠ none ↔ PathForm path) ∧
    (∀ path m, regexp.FindStringSubmatch validPath path = some m ↔
      ∃ op title, op ∈ operations ∧ alphanumeric title ∧
        path = str "/" ++ op ++ str "/" ++ title ∧ m = [path, op, title]) ∧
    (∀ op title, op ∈ operations → alphanumeric title →
      (regexp.FindStringSubmatch validPath (str "/" ++ op ++ str "/" ++ title)).map
        (fun m => m.getD 2 []) = some title) ∧
    (∀ fn world w r op title, op ∈ operations → alphanumeric title →
      r.Path = str "/" ++ op ++ str "/" ++ title →
      makeHandler fn world w r = fn world w r title) ∧
    regexp.FindStringSubmatch validPath (str "/view/") = none ∧
    regexp.FindStringSubmatch validPath (str "/view/a/b") = none ∧
    regexp.FindStringSubmatch validPath (str "/view/a/") = none ∧
    regexp.FindStringSubmatch validPath (str "/view/a\n") = none ∧
    regexp.FindStringSubmatch validPath (str "/view/a.b") = none ∧
    regexp.FindStringSubmatch validPath (str "/view/..") = none ∧
    regexp.FindStringSubmatch validPath (str "/view/café") = none ∧
    regexp.FindStringSubmatch validPath (str "/view/a" ++ [0xFF]) = none ∧
    regexp.FindStringSubmatch validPath (str "/delete/a") = none ∧
    regexp.FindStringSubmatch validPath (str "x/view/a") = none ∧
    regexp.FindStringSubmatch validPath (str "/VIEW/a") = none := by
  refine ⟨?_, find_iff, ?_, ?_, by decide, by decide, by decide, by decide, by decide,
    by decide, by decide, by decide, by decide, by decide, by decide⟩
  · intro path
    rw [pathForm_iff, ne_eq, ← Option.not_isSome_iff_eq_none, not_not]
  · intro op title hop ht
    rw [find_form op title hop ht]
    rfl
  · intro fn world w r op title hop ht hp
    exact makeHandler_accepts fn world w r op title hop ht hp

/-- C2 at a concrete input: the path `/view/Test` matches and hands over `Test`. -/
theorem validPath_characterisation_witness :
    (regexp.FindStringSubmatch validPath (str "/" ++ str "view" ++ str "/" ++ str "Test")).map
      (fun m => m.getD 2 []) = some (str "Test") :=
  validPath_characterisation.2.2.1 (str "view") (str "Test") (by decide) alphanumeric_Test

/-- C3. Rejection by the dispatcher: for every wrapped handler `fn` and every
request whose path is not of the form `/(view|edit|save)/<alphanumerics>`, the
handler returned by `makeHandler(fn)` answers with `http.NotFound` (status 404)
and returns the world as it was: `fn` is not run, no file is read or written. -/
theorem makeHandler_rejects
    (fn : World → http.ResponseWriter → Request → GoString → World × http.ResponseWriter)
    (world : World) (w : http.ResponseWriter) (r : Request) (h : ¬ PathForm r.Path) :
    makeHandler fn world w r =
      (world, w ++ [http.Effect.error (str "404 page not found") http.StatusNotFound]) ∧
    (makeHandler fn world w r).1.fs = world.fs ∧
    (makeHandler fn world w r).1.trace = world.trace ∧
    http.status (makeHandler fn world [] r).2 = http.StatusNotFound := by
  have hm := fun w => makeHandler_notFound fn world w r h
  refine ⟨hm w, by rw [hm w], by rw [hm w], ?_⟩
  rw [hm []]
  rfl

/-- C3 at a concrete input: the path `/view/../../etc/passwd`, with the view
handler wrapped, over a store that holds a page. -/
theorem makeHandler_rejects_witness :
    ¬ PathForm (request "GET" "/view/../../etc/passwd" []).Path ∧
    makeHandler (viewHandler plainTemplates) worldWithTest []
        (request "GET" "/view/../../etc/passwd" []) =
      (worldWithTest, [http.Effect.error (str "404 page not found") 404]) :=
  ⟨(pathForm_iff _).not.mpr (by decide),
   (makeHandler_rejects (viewHandler plainTemplates) worldWithTest []
      (request "GET" "/view/../../etc/passwd" [])
      ((pathForm_iff _).not.mpr (by decide))).1⟩

/-- C4. Path-traversal safety of file access: whatever the request, every file
operation performed while `makeHandler` of `viewHandler`, `editHandler` or
`saveHandler` serves it is on a file named `data/` ++ t ++ `.txt`, where `t` is
non-empty, consists of ASCII letters and digits only, and is the title in the
request path; the name contains no `..` and exactly one slash. -/
theorem file_access_safe (templates : Templates) (world : World) (r : Request) :
    (∃ ops, (makeHandler (viewHandler templates) world [] r).1.trace = world.trace ++ ops ∧
      ∀ op ∈ ops, safeAccess r.Path op) ∧
    (∃ ops, (makeHandler (editHandler templates) world [] r).1.trace = world.trace ++ ops ∧
      ∀ op ∈ ops, safeAccess r.Path op) ∧
    (∃ ops, (makeHandler saveHandler world [] r).1.trace = world.trace ++ ops ∧
      ∀ op ∈ ops, safeAccess r.Path op) := by
  have key : ∀ fn : World → http.ResponseWriter → Request → GoString →
      World × http.ResponseWriter,
      (∀ title, ∃ op, op.name = fileOf title ∧
        (fn world [] r title).1.trace = world.trace ++ [op]) →
      ∃ ops, (makeHandler fn world [] r).1.trace = world.trace ++ ops ∧
        ∀ op ∈ ops, safeAccess r.Path op := by
    intro fn hfn
    by_cases hp : PathForm r.Path
    · obtain ⟨o, t, ho, ht, hpath⟩ := hp
      obtain ⟨op, hname, htr⟩ := hfn t
      refine ⟨[op], ?_, ?_⟩
      · rw [makeHandler_accepts fn world [] r o t ho ht hpath, htr]
      · intro op2 hop2
        rw [List.mem_singleton] at hop2
        rw [hop2, hpath]
        exact fileOf_safe o t ho ht op hname
    · refine ⟨[], ?_, by simp⟩
      rw [makeHandler_notFound fn world [] r hp]
      simp
  refine ⟨?_, ?_, ?_⟩
  · exact key _ (fun title => ⟨FileOp.read (fileOf title), rfl, by rw [viewHandler_world]⟩)
  · exact key _ (fun title => ⟨FileOp.read (fileOf title), rfl, by rw [editHandler_world]⟩)
  · exact key _ (fun title => ⟨FileOp.write (fileOf title), rfl,
      by rw [saveHandler_world, save_trace]⟩)

/-- C4 at a concrete input: saving `Test` writes `data/Test.txt` and nothing else. -/
theorem file_access_safe_witness :
    ∃ ops, (makeHandler saveHandler worldWithTest []
        (request "POST" "/save/Test" [("body", "hello")])).1.trace = worldWithTest.trace ++ ops ∧
      ∀ op ∈ ops, safeAccess (request "POST" "/save/Test" [("body", "hello")]).Path op :=
  (file_access_safe plainTemplates worldWithTest
    (request "POST" "/save/Test" [("body", "hello")])).2.2

/-- C5, as stated, fails: when the file of the page `Test` has mode `0200`, two
save requests for `/save/Test` succeed (302) and the view request that follows is
redirected to `/edit/Test` instead of rendering the page. -/
theorem saves_succeed_view_redirects :
    http.status (makeHandler saveHandler worldWriteOnly []
      (request "POST" "/save/Test" [("body", "hello")])).2 = 302 ∧
    http.status (makeHandler saveHandler
      (makeHandler saveHandler worldWriteOnly []
        (request "POST" "/save/Test" [("body", "hello")])).1 []
      (request "POST" "/save/Test" [("body", "world")])).2 = 302 ∧
    http.status (makeHandler (viewHandler plainTemplates)
      (makeHandler saveHandler
        (makeHandler saveHandler worldWriteOnly []
          (request "POST" "/save/Test" [("body", "hello")])).1 []
        (request "POST" "/save/Test" [("body", "world")])).1 []
      (request "GET" "/view/Test" [])).2 = 302 ∧
    http.location (makeHandler (viewHandler plainTemplates)
      (makeHandler saveHandler
        (makeHandler saveHandler worldWriteOnly []
          (request "POST" "/save/Test" [("body", "hello")])).1 []
        (request "POST" "/save/Test" [("body", "world")])).1 []
      (request "GET" "/view/Test" [])).2 = some (str "/edit/Test") :=
  ⟨(save_request_writeOnly worldWriteOnly (str "Test")
      (request "POST" "/save/Test" [("body", "hello")]) (str "old") alphanumeric_Test
      (by decide) (by decide)).1,
   (save_request_writeOnly _ (str "Test")
      (request "POST" "/save/Test" [("body", "world")]) _ alphanumeric_Test (by decide)
      (save_request_writeOnly worldWriteOnly (str "Test")
        (request "POST" "/save/Test" [("body", "hello")]) (str "old") alphanumeric_Test
        (by decide) (by decide)).2).1,
   view_request_unreadable plainTemplates _ (str "Test") (request "GET" "/view/Test" []) _ true
      alphanumeric_Test (by decide)
      (save_request_writeOnly _ (str "Test")
        (request "POST" "/save/Test" [("body", "world")]) _ alphanumeric_Test (by decide)
        (save_request_writeOnly worldWriteOnly (str "Test")
          (request "POST" "/save/Test" [("body", "hello")]) (str "old") alphanumeric_Test
          (by decide) (by decide)).2).2⟩

/-- C5, amended. Save then view, last write wins: for an alphanumeric title whose
page file does not exist (the umask leaving the owner the right to read it once
created) or is a regular file that the process may read, after a save request for
`/save/title` with form field `body` = b1 that succeeds, the view request for
`/view/title` does not redirect and renders the `view` template with the page of
that title and body exactly b1; when a second save request for the same title with
`body` = b2 succeeds as well, the view request that follows renders the page with
body exactly b2. -/
theorem save_then_view (templates : Templates) (world : World) (title b1 b2 : GoString)
    (r1 r2 rv : Request) (ht : alphanumeric title)
    (hk : readBack world.fs (fileOf title) = true)
    (hp1 : r1.Path = str "/save/" ++ title) (hb1 : r1.FormValue (str "body") = b1)
    (hp2 : r2.Path = str "/save/" ++ title) (hb2 : r2.FormValue (str "body") = b2)
    (hpv : rv.Path = str "/view/" ++ title)
    (hok1 : http.status (makeHandler saveHandler world [] r1).2 = http.StatusFound) :
    Renders templates (str "view") ⟨title, b1⟩
      (makeHandler (viewHandler templates) (makeHandler saveHandler world [] r1).1 [] rv).2 ∧
    (http.status (makeHandler saveHandler (makeHandler saveHandler world [] r1).1 [] r2).2 =
        http.StatusFound →
      Renders templates (str "view") ⟨title, b2⟩
        (makeHandler (viewHandler templates)
          (makeHandler saveHandler (makeHandler saveHandler world [] r1).1 [] r2).1 [] rv).2) := by
  obtain ⟨h1, hk1⟩ := view_after_save templates world title r1 rv ht hk hp1 hpv hok1
  constructor
  · rw [hb1] at h1
    rw [h1]
    exact renders_renderTemplate _ _ _
  · intro hok2
    obtain ⟨h2, _⟩ := view_after_save templates (makeHandler saveHandler world [] r1).1 title
      r2 rv ht hk1 hp2 hpv hok2
    rw [hb2] at h2
    rw [h2]
    exact renders_renderTemplate _ _ _

/-- C5 amended, at a concrete input: title `Test`, bodies `hello` then `world`,
over a readable page file that held `old`; both saves succeed and the view renders
`world`. -/
theorem save_then_view_witness :
    readBack worldWithTest.fs (fileOf (str "Test")) = true ∧
    http.status (makeHandler saveHandler worldWithTest []
      (request "POST" "/save/Test" [("body", "hello")])).2 = 302 ∧
    http.status (makeHandler saveHandler
      (makeHandler saveHandler worldWithTest []
        (request "POST" "/save/Test" [("body", "hello")])).1 []
      (request "POST" "/save/Test" [("body", "world")])).2 = 302 ∧
    Renders plainTemplates (str "view") ⟨str "Test", str "world"⟩
      (makeHandler (viewHandler plainTemplates)
        (makeHandler saveHandler
          (makeHandler saveHandler worldWithTest []
            (request "POST" "/save/Test" [("body", "hello")])).1 []
          (request "POST" "/save/Test" [("body", "world")])).1 []
        (request "GET" "/view/Test" [])).2 :=
  ⟨by decide, by decide, by decide,
   (save_then_view plainTemplates worldWithTest (str "Test") (str "hello") (str "world")
    (request "POST" "/save/Test" [("body", "hello")])
    (request "POST" "/save/Test" [("body", "world")])
    (request "GET" "/view/Test" []) alphanumeric_Test (by decide)
    (by decide) (by decide) (by decide) (by decide) (by decide) (by decide)).2 (by decide)⟩

/-- C6, as stated, fails: the header `Location` is not `/edit/` ++ title for every
title.  `http.Redirect` cleans the path and escapes what is not ASCII: for the
title `..`, whose page is missing, the redirect goes to `/`, and for the title
`café` to `/edit/caf%c3%a9`. -/
theorem missing_view_location_differs :
    (loadPage ⟨emptyStore, []⟩ (str "..")).2 =
      .error (str "open data/...txt: no such file or directory") ∧
    http.location (viewHandler plainTemplates ⟨emptyStore, []⟩ []
      (request "GET" "/view/Test" []) (str "..")).2 = some (str "/") ∧
    some (str "/") ≠ some (str "/edit/" ++ str "..") ∧
    (loadPage ⟨emptyStore, []⟩ (str "café")).2 =
      .error (str "open data/café.txt: no such file or directory") ∧
    http.location (viewHandler plainTemplates ⟨emptyStore, []⟩ []
      (request "GET" "/view/Test" []) (str "café")).2 = some (str "/edit/caf%c3%a9") :=
  ⟨rfl, by decide, by decide, rfl, by decide⟩

/-- C6, amended. View of a missing page: for every title, if `loadPage(title)`
fails, for whatever reason, `viewHandler` answers with `http.Redirect` to
`/edit/` ++ title, status 302; it executes no template and sends no error status.
For an alphanumeric title the header `Location` is exactly `/edit/` ++ title, and
that target is a path that `validPath` accepts, with that title. -/
theorem viewHandler_missing (templates : Templates) (world : World)
    (w : http.ResponseWriter) (r : Request) (title err : GoString)
    (h : (loadPage world title).2 = .error err) :
    (viewHandler templates world w r title).2 =
      http.Redirect w r (str "/edit/" ++ title) http.StatusFound ∧
    http.status (viewHandler templates world [] r title).2 = 302 ∧
    (∃ url, http.location (viewHandler templates world [] r title).2 = some url) ∧
    (∀ name p out, http.Effect.execute name p out ∉ (viewHandler templates world [] r title).2) ∧
    (∀ msg code, http.Effect.error msg code ∉ (viewHandler templates world [] r title).2) ∧
    (alphanumeric title →
      (viewHandler templates world w r title).2 =
        w ++ [http.Effect.redirect (str "/edit/" ++ title) http.StatusFound] ∧
      http.location (viewHandler templates world [] r title).2 = some (str "/edit/" ++ title) ∧
      regexp.FindStringSubmatch validPath (str "/edit/" ++ title) =
        some [str "/edit/" ++ title, str "edit", title]) := by
  have hv : ∀ w, (viewHandler templates world w r title).2 =
      http.Redirect w r (str "/edit/" ++ title) http.StatusFound := by
    intro w
    rw [viewHandler_result, h]
  refine ⟨hv w, ?_, ?_, ?_, ?_, ?_⟩
  · rw [hv []]
    rfl
  · rw [hv []]
    exact ⟨_, rfl⟩
  · intro name p out
    rw [hv []]
    simp [http.Redirect]
  · intro msg code
    rw [hv []]
    simp [http.Redirect]
  · intro ht
    have hloc := redirectLocation_form r (str "edit") title (by decide) ht
    rw [← path_edit] at hloc
    refine ⟨?_, ?_, ?_⟩
    · rw [hv w, http.Redirect, hloc]
    · rw [hv [], http.Redirect, hloc]
      rfl
    · rw [path_edit]
      exact find_form (str "edit") title (by decide) ht

/-- C6 amended, at a concrete input: the title `Test` in an empty store. -/
theorem viewHandler_missing_witness :
    (loadPage ⟨emptyStore, []⟩ (str "Test")).2 =
      .error (str "open data/Test.txt: no such file or directory") ∧
    (viewHandler plainTemplates ⟨emptyStore, []⟩ [] (request "GET" "/view/Test" [])
        (str "Test")).2 =
      [http.Effect.redirect (str "/edit/Test") 302] :=
  ⟨rfl,
   ((viewHandler_missing plainTemplates ⟨emptyStore, []⟩ [] (request "GET" "/view/Test" [])
      (str "Test") (str "open data/Test.txt: no such file or directory") rfl).2.2.2.2.2
      alphanumeric_Test).1⟩

/-- C7, as stated, fails: with a template set whose execution fails, editing the
missing page `Test` is answered with status 500, not 200. -/
theorem editHandler_missing_not_200 :
    (loadPage ⟨emptyStore, []⟩ (str "Test")).2 =
      .error (str "open data/Test.txt: no such file or directory") ∧
    http.status (editHandler failingTemplates ⟨emptyStore, []⟩ []
      (request "GET" "/edit/Test" []) (str "Test")).2 = 500 ∧
    http.status (editHandler failingTemplates ⟨emptyStore, []⟩ []
      (request "GET" "/edit/Test" []) (str "Test")).2 ≠ 200 :=
  ⟨rfl, by decide, by decide⟩

/-- C7, amended. Edit of a missing page: for every title, if `loadPage(title)`
fails, `editHandler` issues no redirect and executes the `edit` template with the
page of exactly that title and an empty body; if `loadPage(title)` succeeds it
executes the `edit` template with the loaded page instead.  In both cases the
response has status 200 provided the execution of the template reports no error. -/
theorem editHandler_renders (templates : Templates) (world : World) (r : Request)
    (title : GoString) :
    (∀ err, (loadPage world title).2 = .error err →
      Renders templates (str "edit") ⟨title, []⟩ (editHandler templates world [] r title).2 ∧
      ((templates (str "edit.html") ⟨title, []⟩).2 = none →
        http.status (editHandler templates world [] r title).2 = 200)) ∧
    (∀ p, (loadPage world title).2 = .ok p →
      Renders templates (str "edit") p (editHandler templates world [] r title).2 ∧
      ((templates (str "edit.html") p).2 = none →
        http.status (editHandler templates world [] r title).2 = 200)) := by
  have he : str "edit" ++ str ".html" = str "edit.html" := by decide
  constructor
  · intro err h
    rw [editHandler_result, h]
    refine ⟨renders_renderTemplate _ _ _, fun hn => ?_⟩
    rw [← he] at hn
    exact (renderTemplate_facts templates (str "edit") ⟨title, []⟩).2.2.2 hn
  · intro p h
    rw [editHandler_result, h]
    refine ⟨renders_renderTemplate _ _ _, fun hn => ?_⟩
    rw [← he] at hn
    exact (renderTemplate_facts templates (str "edit") p).2.2.2 hn

/-- C7 amended, at a concrete input: the missing page `Test`, templates that work. -/
theorem editHandler_renders_witness :
    (loadPage ⟨emptyStore, []⟩ (str "Test")).2 =
      .error (str "open data/Test.txt: no such file or directory") ∧
    Renders plainTemplates (str "edit") ⟨str "Test", []⟩
      (editHandler plainTemplates ⟨emptyStore, []⟩ [] (request "GET" "/edit/Test" [])
        (str "Test")).2 ∧
    http.status (editHandler plainTemplates ⟨emptyStore, []⟩ []
      (request "GET" "/edit/Test" []) (str "Test")).2 = 200 :=
  ⟨rfl,
   ((editHandler_renders plainTemplates ⟨emptyStore, []⟩ (request "GET" "/edit/Test" [])
      (str "Test")).1 (str "open data/Test.txt: no such file or directory") rfl).1,
   ((editHandler_renders plainTemplates ⟨emptyStore, []⟩ (request "GET" "/edit/Test" [])
      (str "Test")).1 (str "open data/Test.txt: no such file or directory") rfl).2
      (by decide)⟩

/-- C8, as stated, fails: a save that succeeds is not always answered with the
header `Location` equal to `/view/` ++ title.  For the title `..` the save succeeds
(the file is `data/...txt`), the status is 302 and `http.Redirect`, which cleans the
path, sends the location `/`. -/
theorem saveHandler_location_differs :
    (Page.save ⟨str "..", (request "POST" "/save/Test" [("body", "hello")]).FormValue
      (str "body")⟩ ⟨emptyStore, []⟩).2 = none ∧
    http.status (saveHandler ⟨emptyStore, []⟩ []
      (request "POST" "/save/Test" [("body", "hello")]) (str "..")).2 = 302 ∧
    http.location (saveHandler ⟨emptyStore, []⟩ []
      (request "POST" "/save/Test" [("body", "hello")]) (str "..")).2 = some (str "/") ∧
    some (str "/") ≠ some (str "/view/" ++ str "..") :=
  ⟨by decide, by decide, by decide, by decide⟩

/-- C8, amended. Outcome of the save handler: for every title and form,
`saveHandler` saves the page made of the title and the bytes of the form field
`body`; when the save succeeds the response is `http.Redirect` to `/view/` ++ title
with status 302, when it fails the response is `http.Error` with status 500 and the
text of the error, and no redirect; so the status is 302 exactly when the save
succeeds and 500 exactly when it fails.  For an alphanumeric title the header
`Location` of the redirect is exactly `/view/` ++ title. -/
theorem saveHandler_outcome (world : World) (w : http.ResponseWriter) (r : Request)
    (title : GoString) :
    (saveHandler world w r title).1 = (Page.save ⟨title, r.FormValue (str "body")⟩ world).1 ∧
    ((Page.save ⟨title, r.FormValue (str "body")⟩ world).2 = none →
      (saveHandler world w r title).2 =
        http.Redirect w r (str "/view/" ++ title) http.StatusFound) ∧
    (∀ err, (Page.save ⟨title, r.FormValue (str "body")⟩ world).2 = some err →
      (saveHandler world w r title).2 =
        w ++ [http.Effect.error err http.StatusInternalServerError]) ∧
    (http.status (saveHandler world [] r title).2 = 302 ↔
      (Page.save ⟨title, r.FormValue (str "body")⟩ world).2 = none) ∧
    ((http.status (saveHandler world [] r title).2 = 500 ∧
        http.location (saveHandler world [] r title).2 = none ∧
        ∃ err, (Page.save ⟨title, r.FormValue (str "body")⟩ world).2 = some err ∧
          (saveHandler world [] r title).2 = [http.Effect.error err 500]) ↔
      (Page.save ⟨title, r.FormValue (str "body")⟩ world).2 ≠ none) ∧
    (alphanumeric title →
      ((http.status (saveHandler world [] r title).2 = 302 ∧
          http.location (saveHandler world [] r title).2 = some (str "/view/" ++ title)) ↔
        (Page.save ⟨title, r.FormValue (str "body")⟩ world).2 = none) ∧
      ((Page.save ⟨title, r.FormValue (str "body")⟩ world).2 = none →
        (saveHandler world w r title).2 =
          w ++ [http.Effect.redirect (str "/view/" ++ title) http.StatusFound])) := by
  refine ⟨saveHandler_world world w r title, ?_, ?_, ?_, ?_, ?_⟩
  · intro h
    rw [saveHandler_result, h]
  · intro err h
    rw [saveHandler_result, h]
  · exact (saveHandler_status world r title).1
  · rw [saveHandler_result]
    cases hs : (Page.save ⟨title, r.FormValue (str "body")⟩ world).2 with
    | none => simp [http.Redirect, http.status, http.location, http.StatusFound]
    | some err => simp [http.status, http.location, http.StatusInternalServerError]
  · intro ht
    have hloc := redirectLocation_form r (str "view") title (by decide) ht
    rw [← path_view] at hloc
    constructor
    · rw [saveHandler_result]
      cases hs : (Page.save ⟨title, r.FormValue (str "body")⟩ world).2 with
      | none => simp [http.Redirect, http.status, http.location, http.StatusFound, hloc]
      | some err => simp [http.status, http.location, http.StatusInternalServerError]
    · intro h
      rw [saveHandler_result, h]
      simp only [http.Redirect, hloc]

/-- C8 amended, at concrete inputs: a save into a store that takes it is answered
302 with the view path; a save into a store whose directory `data` is missing is
answered 500 with the text of the error. -/
theorem saveHandler_outcome_witness :
    (saveHandler worldWithTest [] (request "POST" "/save/Test" [("body", "hello")])
        (str "Test")).2 = [http.Effect.redirect (str "/view/Test") 302] ∧
    (saveHandler worldNoData [] (request "POST" "/save/Test" [("body", "hello")])
        (str "Test")).2 =
      [http.Effect.error (str "open data/Test.txt: no such file or directory") 500] :=
  ⟨((saveHandler_outcome worldWithTest [] (request "POST" "/save/Test" [("body", "hello")])
      (str "Test")).2.2.2.2.2 alphanumeric_Test).2 (by decide),
   (saveHandler_outcome worldNoData [] (request "POST" "/save/Test" [("body", "hello")])
      (str "Test")).2.2.1 _ (by decide)⟩

/-- C9, as stated, fails: the method is not looked at.  `GET /save/Test` is served
by the save handler: the answer is 302, not 404, and the stored page `Test` is
replaced by the empty body of the absent form field; `POST /view/Test` is served
as a view, status 200.  Nor is every other request answered 404: the multiplexer
redirects `GET /view//Test` to the canonical path `/view/Test`, and the server
answers `OPTIONS *` itself, with an empty 200. -/
theorem get_save_is_served :
    http.status (serve plainTemplates worldWithTest (request "GET" "/save/Test" [])).2 = 302 ∧
    (loadPage worldWithTest (str "Test")).2 = .ok ⟨str "Test", str "old"⟩ ∧
    (loadPage (serve plainTemplates worldWithTest (request "GET" "/save/Test" [])).1
      (str "Test")).2 = .ok ⟨str "Test", []⟩ ∧
    http.status (serve plainTemplates worldWithTest (request "POST" "/view/Test" [])).2 = 200 ∧
    http.location (serve plainTemplates worldWithTest (request "GET" "/view//Test" [])).2 =
      some (str "/view/Test") ∧
    http.status (serve plainTemplates worldWithTest (request "GET" "/view//Test" [])).2 ≠ 404 ∧
    (serve plainTemplates worldWithTest (request "OPTIONS" "*" [])).2 = [] ∧
    http.status (serve plainTemplates worldWithTest (request "OPTIONS" "*" [])).2 = 200 :=
  ⟨by decide, rfl, rfl, by decide, by decide, by decide, by decide, by decide⟩

/-- C9, amended. The server decides on the path alone, whatever the method.  A
request whose path is not of the form `/(view|edit|save)/<alphanumerics>` leaves
the world as it was (no handler of the program touches a file) and is answered
with 404 by `http.NotFound`, unless the multiplexer answers it with a redirect or
the request target is `*`, which the server or the multiplexer answers itself.  A
request (not for the target `*`) whose path is `/view/title`, `/edit/title` or
`/save/title` with an alphanumeric title is served by `viewHandler`, `editHandler`
or `saveHandler` on that title, for every method. -/
theorem serve_decides_on_path (templates : Templates) (world : World) (r : Request) :
    (¬ PathForm r.Path →
      (serve templates world r).1 = world ∧
      ((serve templates world r).2 =
          [http.Effect.error (str "404 page not found") http.StatusNotFound] ∨
        (∃ url code, (serve templates world r).2 = [http.Effect.redirect url code]) ∨
        (r.RequestURI = str "*" ∧
          ((serve templates world r).2 = [] ∨
            (serve templates world r).2 =
              [http.Effect.writeHeader http.StatusBadRequest])))) ∧
    (r.RequestURI ≠ str "*" → ∀ title, alphanumeric title →
      (r.Path = str "/view/" ++ title →
        serve templates world r = viewHandler templates world [] r title) ∧
      (r.Path = str "/edit/" ++ title →
        serve templates world r = editHandler templates world [] r title) ∧
      (r.Path = str "/save/" ++ title →
        serve templates world r = saveHandler world [] r title)) :=
  ⟨serve_rejects templates world r,
   fun huri title ht => serve_accepts templates world r title huri ht⟩

/-- C9 amended, at concrete inputs: `DELETE /remove/Test` changes nothing and is
answered 404; `GET /save/Test` is served by the save handler. -/
theorem serve_decides_on_path_witness :
    (¬ PathForm (request "DELETE" "/remove/Test" []).Path ∧
      (serve plainTemplates worldWithTest (request "DELETE" "/remove/Test" [])).1 =
        worldWithTest ∧
      http.status (serve plainTemplates worldWithTest
        (request "DELETE" "/remove/Test" [])).2 = 404) ∧
    serve plainTemplates worldWithTest (request "GET" "/save/Test" []) =
      saveHandler worldWithTest [] (request "GET" "/save/Test" []) (str "Test") :=
  ⟨⟨(pathForm_iff _).not.mpr (by decide),
    ((serve_decides_on_path plainTemplates worldWithTest
      (request "DELETE" "/remove/Test" [])).1 ((pathForm_iff _).not.mpr (by decide))).1,
    by decide⟩,
   ((serve_decides_on_path plainTemplates worldWithTest (request "GET" "/save/Test" [])).2
      (by decide) (str "Test") alphanumeric_Test).2.2 (by decide)⟩

/-- C10, as stated, fails: distinct titles need not have distinct files.  The
titles `./Test` and `Test` differ, yet `data/./Test.txt` and `data/Test.txt` are one
file: saving the page `./Test` changes what `loadPage` returns for `Test`. -/
theorem save_changes_other_title :
    str "./Test" ≠ str "Test" ∧
    fileOf (str "./Test") ≠ fileOf (str "Test") ∧
    (loadPage worldWithTest (str "Test")).2 = .ok ⟨str "Test", str "old"⟩ ∧
    (Page.save ⟨str "./Test", str "new"⟩ worldWithTest).2 = none ∧
    (loadPage (Page.save ⟨str "./Test", str "new"⟩ worldWithTest).1 (str "Test")).2 =
      .ok ⟨str "Test", str "new"⟩ :=
  ⟨by decide, by decide, rfl, by decide, rfl⟩

/-- C10, amended. Independence of pages: for titles t1 and t2 whose file names
denote different files of the store, and every body, saving the page t1 leaves the
result of `loadPage(t2)` as it was.  The map from a title to its file name is
injective, and a save changes at most the file its name denotes.  `viewHandler` and
`editHandler` leave the whole file store unchanged.  In a store that resolves names
by their spelling alone, the file names of distinct alphanumeric titles denote
different files, so that saving one leaves the other as it was. -/
theorem save_frame (templates : Templates) (world : World) (w : http.ResponseWriter)
    (r : Request) (t1 t2 : GoString) (body : Bytes)
    (hne : world.fs.resolve (fileOf t1) ≠ world.fs.resolve (fileOf t2)) :
    (loadPage (Page.save ⟨t1, body⟩ world).1 t2).2 = (loadPage world t2).2 ∧
    (∀ a b, fileOf a = fileOf b → a = b) ∧
    (∀ k, k ≠ world.fs.resolve (fileOf t1) →
      (Page.save ⟨t1, body⟩ world).1.fs.files k = world.fs.files k) ∧
    (Page.save ⟨t1, body⟩ world).1.fs.resolve = world.fs.resolve ∧
    (Page.save ⟨t1, body⟩ world).1.fs.umask = world.fs.umask ∧
    (viewHandler templates world w r t2).1.fs = world.fs ∧
    (editHandler templates world w r t2).1.fs = world.fs ∧
    (∀ (other : World) (a b : GoString), other.fs.resolve = path.Clean →
      alphanumeric a → alphanumeric b → a ≠ b →
      other.fs.resolve (fileOf a) ≠ other.fs.resolve (fileOf b) ∧
      (loadPage (Page.save ⟨a, body⟩ other).1 b).2 = (loadPage other b).2) := by
  have frame : ∀ (v : World) (a b : GoString),
      v.fs.resolve (fileOf a) ≠ v.fs.resolve (fileOf b) →
      (loadPage (Page.save ⟨a, body⟩ v).1 b).2 = (loadPage v b).2 := by
    intro v a b hab
    obtain ⟨hr, _, hf⟩ := store_after_save ⟨a, body⟩ v
    rw [loadPage_result, loadPage_result, hr, hf _ (fun h => hab h.symm)]
  obtain ⟨hr, hu, hf⟩ := store_after_save ⟨t1, body⟩ world
  refine ⟨frame world t1 t2 hne, fileOf_injective, hf, hr, hu, ?_, ?_, ?_⟩
  · rw [viewHandler_world]
  · rw [editHandler_world]
  · intro other a b hres ha hb hab
    have hd : other.fs.resolve (fileOf a) ≠ other.fs.resolve (fileOf b) := by
      rw [hres, Clean_fileOf a ha, Clean_fileOf b hb]
      exact fun h => hab (fileOf_injective a b h)
    exact ⟨hd, frame other a b hd⟩

/-- C10 amended, at a concrete input: saving `Other` does not disturb the page
`Test`. -/
theorem save_frame_witness :
    worldWithTest.fs.resolve (fileOf (str "Other")) ≠
      worldWithTest.fs.resolve (fileOf (str "Test")) ∧
    (loadPage (Page.save ⟨str "Other", str "new"⟩ worldWithTest).1 (str "Test")).2 =
      (loadPage worldWithTest (str "Test")).2 ∧
    (loadPage worldWithTest (str "Test")).2 = .ok ⟨str "Test", str "old"⟩ :=
  ⟨by decide,
   (save_frame plainTemplates worldWithTest [] (request "POST" "/save/Other" [("body", "new")])
      (str "Other") (str "Test") (str "new") (by decide)).1,
   rfl⟩

end Gowiki
